import Mathlib

/-!
Shallow embedding of `src/solution.cpp` (satellite beam assignment planner) and
verification of the specification claims about it.

Modelling conventions, stated once here:

* `float` values are idealised as exact rationals (`ℚ`) for data read from the
  input, and the geometric angle computation (`calc_angle`, which uses `sqrt`
  and `acos`) is carried out over the real numbers `ℝ`.  Floating-point
  rounding is not modelled; all claims under verification are about control
  flow and exact-arithmetic behaviour.
* The C++ `scenario_t` is a `std::map<string, pos_vec_t>` that is always
  populated with exactly the three keys `"user"`, `"sat"`, `"interferer"`;
  it is embedded as a record with the three corresponding lists.
* The per-satellite heap allocation in `solve` creates, for each `sat` input
  line, one shared counter and four `SatBeamEntry` records (one per color),
  each with its own beam list.  The mutable heap is embedded as `BeamState`:
  `beam_lists` has one entry per `SatBeamEntry` (so four consecutive entries
  per satellite line) and `counters` has one entry per satellite line; the
  shared-pointer aliasing of the source corresponds to entry `4*k + c`
  using counter `k`.
* C++ `std::vector` indexing out of range is undefined behaviour; the
  embedding makes it total with `getI` (reads return a default, writes are
  dropped).  All claims about in-range executions are unaffected.
* `std::sort` with the strict comparator `sortUsersByPotentialCoverage`
  produces some permutation that is pairwise non-decreasing in the length of
  the visible-satellite list; the tie order among equal lengths is
  implementation-defined (spec §9).  The embedding uses `List.mergeSort`
  with the non-strict comparison, one of the permitted outcomes.
-/

/-- Component type of `vector_3d_t` (an `array<float,3>`): a 3-d position with
rational (idealised float) coordinates. -/
structure Vec3 where
  x : ℚ
  y : ℚ
  z : ℚ
deriving DecidableEq

/-- Global constant `ORIGIN = {0,0,0}`. -/
def ORIGIN : Vec3 := ⟨0, 0, 0⟩

/-- Constant `BEAMS_PER_SATELLITE` (32). -/
def BEAMS_PER_SATELLITE : ℕ := 32

/-- Constant `COLORS_PER_SATELLITE` (4). -/
def COLORS_PER_SATELLITE : ℕ := 4

/-- Constant `MAX_USER_VISIBLE_ANGLE` (45 degrees). -/
def MAX_USER_VISIBLE_ANGLE : ℝ := 45

/-- Constant `NON_STARLINK_INTERFERENCE_MAX` (20 degrees). -/
def NON_STARLINK_INTERFERENCE_MAX : ℝ := 20

/-- Constant `SELF_INTERFERENCE_MAX` (10 degrees). -/
def SELF_INTERFERENCE_MAX : ℝ := 10

/-- Constant `COLOR_IDS = {'A','B','C','D'}`. -/
def COLOR_IDS : List Char := ['A', 'B', 'C', 'D']

/-- Literal `3.141592653589793` used by `calc_angle` (the source does not use
an exact pi). -/
def PI_LITERAL : ℝ := 3.141592653589793

/-- Magnitude of the difference vector `p - vertex`, as `calc_angle` computes
it: `sqrt(pow(.,2) + pow(.,2) + pow(.,2))`. -/
noncomputable def diff_mag (vertex p : Vec3) : ℝ :=
  Real.sqrt (((p.x : ℝ) - (vertex.x : ℝ)) ^ 2 +
    ((p.y : ℝ) - (vertex.y : ℝ)) ^ 2 + ((p.z : ℝ) - (vertex.z : ℝ)) ^ 2)

/-- The `dot_product` value of `calc_angle`: dot product of the two
component-wise normalised difference vectors. -/
noncomputable def norm_dot (vertex point_a point_b : Vec3) : ℝ :=
  (((point_a.x : ℝ) - (vertex.x : ℝ)) / diff_mag vertex point_a) *
      (((point_b.x : ℝ) - (vertex.x : ℝ)) / diff_mag vertex point_b) +
    (((point_a.y : ℝ) - (vertex.y : ℝ)) / diff_mag vertex point_a) *
      (((point_b.y : ℝ) - (vertex.y : ℝ)) / diff_mag vertex point_b) +
    (((point_a.z : ℝ) - (vertex.z : ℝ)) / diff_mag vertex point_a) *
      (((point_b.z : ℝ) - (vertex.z : ℝ)) / diff_mag vertex point_b)

/-- The `dot_product_bound` clamp `MIN(1.0, MAX(-1.0, d))` of `calc_angle`,
with the `MIN`/`MAX` macros expanded to their conditional form. -/
noncomputable def clamp_pm1 (d : ℝ) : ℝ :=
  if 1 < (if -1 > d then -1 else d) then 1 else (if -1 > d then -1 else d)

/-- Function `calc_angle(vertex, point_a, point_b)`: the inner angle in
degrees at `vertex` between the rays toward `point_a` and `point_b`.
Transcribed step by step: difference vectors, magnitudes via `sqrt` of the
sum of squares (`diff_mag`), component-wise normalisation and dot product
(`norm_dot`), clamp of the dot product to `[-1, 1]` via the `MIN`/`MAX`
macros (`clamp_pm1`), then `acos(..) * 180.0 / 3.141592653589793`. -/
noncomputable def calc_angle (vertex point_a point_b : Vec3) : ℝ :=
  Real.arccos (clamp_pm1 (norm_dot vertex point_a point_b)) * 180 / PI_LITERAL

/-- Scenario record: the string-keyed `scenario_t` map with its three fixed
keys `"user"`, `"sat"`, `"interferer"` embedded as three position lists. -/
structure Scenario where
  users : List Vec3
  sats : List Vec3
  interferers : List Vec3
deriving DecidableEq

/-- Immutable part of a `SatBeamEntry`: the satellite id (0-based, as stored:
the 1-based input token minus one, an `int` that the parser never validates)
and the color character. -/
structure SatBeamMeta where
  sat_id : ℤ
  color : Char
deriving DecidableEq, Inhabited

/-- Mutable heap reached from a `vector<SatBeamEntry>`: `beam_lists` holds the
`beam_list` target vector of each entry (four consecutive entries per `sat`
input line) and `counters` holds the shared `total_sat_beam_count` of each
satellite line (aliased by that line's four entries). -/
structure BeamState where
  beam_lists : List (List Vec3)
  counters : List ℕ
deriving DecidableEq

/-- Struct `UserVisibilityEntry`: a user id and the list of satellite ids the
user may connect to. -/
structure UserVisibilityEntry where
  user_id : ℕ
  visible_sats : List ℤ
deriving DecidableEq

/-- One printed assignment line
`sat <sat_id+1> beam <count-after-increment> user <user_id+1> color <c>`,
kept as a structured event. -/
structure AssignmentEvent where
  sat : ℤ
  beam : ℕ
  user : ℕ
  color : Char
deriving DecidableEq

/-- Total model of C++ `vector` indexing with an `int` index: a read out of
range (undefined behaviour in the source) returns the supplied default. -/
def getI {α : Type} (l : List α) (i : ℤ) (d : α) : α :=
  if 0 ≤ i then l.getD i.toNat d else d

/-- Total model of a C++ `vector` element write with an `int` index: a write
out of range (undefined behaviour in the source) is dropped. -/
def setI {α : Type} (l : List α) (i : ℤ) (a : α) : List α :=
  if 0 ≤ i then l.set i.toNat a else l

/-- Helper `split(text, sep)` on character lists, transcribing the
`find`/`substr` loop: empty tokens are kept, and the trailing segment is
always emitted. -/
def splitCh (sep : Char) : List Char → List (List Char)
  | [] => [[]]
  | c :: rest =>
    if c = sep then [] :: splitCh sep rest
    else
      match splitCh sep rest with
      | [] => [[c]]
      | t :: ts => (c :: t) :: ts

/-- Function `split(text, sep)` from the source: split a string at every
occurrence of `sep`, keeping empty tokens. -/
def split (text : String) (sep : Char) : List String :=
  (splitCh sep text.toList).map List.asString

/-- Decimal digit test used by the string-to-number models. -/
def isDigitCh (c : Char) : Bool := decide ('0' ≤ c ∧ c ≤ '9')

/-- Numeric value of a digit list, most significant first. -/
def digitsToNat (ds : List Char) : ℕ :=
  ds.foldl (fun acc c => 10 * acc + (c.toNat - '0'.toNat)) 0

/-- Model of `std::stof` restricted to the decimal grammar actually exercised
by scenario files: optional sign, then integer digits and an optional
fractional part; at least one digit is required, trailing characters are
ignored, and the result is the exact rational value.  Returns `none` exactly
when `stof` would throw `std::invalid_argument` on such a token.  (The
hexadecimal, exponent and infinity/nan forms of `strtof` are outside the
model.) -/
def stofQ (s : String) : Option ℚ :=
  let cs := s.toList
  let sgn : ℚ := if cs.headD ' ' = '-' then -1 else 1
  let cs1 := if cs.headD ' ' = '-' ∨ cs.headD ' ' = '+' then cs.tail else cs
  let intDigits := cs1.takeWhile isDigitCh
  let rest := cs1.dropWhile isDigitCh
  let fracDigits := if rest.headD ' ' = '.' then rest.tail.takeWhile isDigitCh else []
  if intDigits = [] ∧ fracDigits = [] then none
  else
    some (sgn * ((digitsToNat intDigits : ℚ) +
      (digitsToNat fracDigits : ℚ) / (10 : ℚ) ^ fracDigits.length))

/-- Model of `std::stoi` restricted to the decimal grammar: optional sign then
digits; at least one digit is required and trailing characters are ignored.
Returns `none` exactly when `stoi` would throw on such a token. -/
def stoiZ (s : String) : Option ℤ :=
  let cs := s.toList
  let sgn : ℤ := if cs.headD ' ' = '-' then -1 else 1
  let cs1 := if cs.headD ' ' = '-' ∨ cs.headD ' ' = '+' then cs.tail else cs
  let ds := cs1.takeWhile isDigitCh
  if ds = [] then none else some (sgn * (digitsToNat ds : ℤ))

/-- Constant `USER_KEY`. -/
def USER_KEY : String := "user"

/-- Constant `SATS_KEY`. -/
def SATS_KEY : String := "sat"

/-- Constant `INTERFERER_KEY`. -/
def INTERFERER_KEY : String := "interferer"

/-- Ways a run of `solve` can end without producing assignments, plus the
successful outcome carrying the emitted assignment events. -/
inductive SolveOutcome where
  /-- `scenario_file.fail()`: the path could not be opened; reported. -/
  | fileNotFound : SolveOutcome
  /-- A line did not split into 5 tokens: `couldn't read line!` is printed
  and `solve` returns (the reported termination path). -/
  | malformedLine (line : String) : SolveOutcome
  /-- `stof`/`stoi` threw on the given token: the exception is never caught,
  so the program aborts without printing the malformed-line report. -/
  | exceptionAbort (token : String) : SolveOutcome
  /-- The `assert` on the role token failed: the program aborts. -/
  | assertAbort (role : String) : SolveOutcome
  /-- Parsing succeeded and the assignment engine ran to completion. -/
  | ok (events : List AssignmentEvent) : SolveOutcome
deriving DecidableEq

/-- Error half of the per-line parsing step. -/
inductive ParseError where
  | malformed (line : String) : ParseError
  | numberError (token : String) : ParseError
  | badRole (role : String) : ParseError
deriving DecidableEq

/-- Accumulated parser state: the scenario map, the `sat_beam_list` metadata
and the mutable beam heap it points into. -/
structure ParseAcc where
  scenario : Scenario
  sbl : List SatBeamMeta
  st : BeamState
deriving DecidableEq

/-- Initial parser state: empty scenario map (with its three keys), empty
`sat_beam_list`, empty heap. -/
def initAcc : ParseAcc := ⟨⟨[], [], []⟩, [], ⟨[], []⟩⟩

/-- Append a parsed position to the role's list in the scenario map. -/
def scenarioPush (sc : Scenario) (role : String) (pos : Vec3) : Scenario :=
  if role = USER_KEY then { sc with users := sc.users ++ [pos] }
  else if role = SATS_KEY then { sc with sats := sc.sats ++ [pos] }
  else { sc with interferers := sc.interferers ++ [pos] }

/-- The four `SatBeamEntry` records allocated for one `sat` line with stored
id `id` (one per color, in `COLOR_IDS` order). -/
def satBlock (id : ℤ) : List SatBeamMeta :=
  COLOR_IDS.map (fun c => ⟨id, c⟩)

/-- Parse one line of the scenario file, transcribing the body of the
`while (getline ...)` loop: skip comment/empty lines, split on spaces,
report a token count other than 5, convert the three coordinates with
`stof` (left to right, throwing on failure), check the role `assert`,
append the position to the scenario, and for a `sat` line allocate one
shared counter and four per-color `SatBeamEntry` records whose stored id is
`stoi(parts[1]) - 1`. -/
def parse_line (acc : ParseAcc) (line : String) : Except ParseError ParseAcc :=
  if line.toList.headD '\x00' = '#' ∨ line = "" then .ok acc
  else
    let parts := split line ' '
    if parts.length ≠ 5 then .error (.malformed line)
    else
      match stofQ (parts.getD 2 "") with
      | none => .error (.numberError (parts.getD 2 ""))
      | some x =>
      match stofQ (parts.getD 3 "") with
      | none => .error (.numberError (parts.getD 3 ""))
      | some y =>
      match stofQ (parts.getD 4 "") with
      | none => .error (.numberError (parts.getD 4 ""))
      | some z =>
      let role := parts.getD 0 ""
      if ¬ (role = USER_KEY ∨ role = SATS_KEY ∨ role = INTERFERER_KEY) then
        .error (.badRole role)
      else
        let sc := scenarioPush acc.scenario role ⟨x, y, z⟩
        if role = SATS_KEY then
          match stoiZ (parts.getD 1 "") with
          | none => .error (.numberError (parts.getD 1 ""))
          | some n =>
            .ok ⟨sc, acc.sbl ++ satBlock (n - 1),
                 ⟨acc.st.beam_lists ++ [[], [], [], []],
                  acc.st.counters ++ [0]⟩⟩
        else
          .ok ⟨sc, acc.sbl, acc.st⟩

/-- Parse a list of scenario lines in order, stopping at the first failing
line (transcribing the `while (getline ...)` loop together with the early
`return` on a malformed line and the aborting `stof`/`assert` failures). -/
def parse_lines (acc : ParseAcc) : List String → Except ParseError ParseAcc
  | [] => .ok acc
  | l :: rest =>
    match parse_line acc l with
    | .error e => .error e
    | .ok acc2 => parse_lines acc2 rest

/-- Recursive transcription of the interferer loop in
`generate_user_vis_list`: true iff some interferer position forms an angle
below `NON_STARLINK_INTERFERENCE_MAX` at the user between the interferer ray
and the satellite ray. -/
def interferer_violation (user_pos sat_pos : Vec3) : List Vec3 → Prop
  | [] => False
  | ip :: rest =>
    calc_angle user_pos ip sat_pos < NON_STARLINK_INTERFERENCE_MAX ∨
      interferer_violation user_pos sat_pos rest

/-- Stride-4 walk over `sat_beam_list` (`sat_beam_i += COLORS_PER_SATELLITE`):
the entries at indices 0, 4, 8, .... -/
def every4 {α : Type} : List α → List α
  | [] => []
  | a :: rest => a :: every4 (rest.drop 3)
termination_by l => l.length
decreasing_by
  simp only [List.length_drop, List.length_cons]
  omega

open Classical in
/-- Body of the satellite loop of `generate_user_vis_list` for one user:
walk the stride-4 `sat_beam_list` entries; skip a satellite when
`calc_angle(user_pos, ORIGIN, sat_pos) <= 180 - MAX_USER_VISIBLE_ANGLE`
(the elevation test fails), skip it when some interferer violates the
20-degree constraint, and otherwise push its `sat_id`. -/
noncomputable def vis_filter (scen : Scenario) (user_pos : Vec3) :
    List SatBeamMeta → List ℤ
  | [] => []
  | m :: rest =>
    if calc_angle user_pos ORIGIN (getI scen.sats m.sat_id ORIGIN) ≤
        180 - MAX_USER_VISIBLE_ANGLE then
      vis_filter scen user_pos rest
    else if interferer_violation user_pos (getI scen.sats m.sat_id ORIGIN)
        scen.interferers then
      vis_filter scen user_pos rest
    else
      m.sat_id :: vis_filter scen user_pos rest

/-- Function `generate_user_vis_list(scenario, sat_beam_list)`: one
`UserVisibilityEntry` per user index, whose satellite list is the filtered
stride-4 walk of `sat_beam_list`. -/
noncomputable def generate_user_vis_list (scen : Scenario)
    (sbl : List SatBeamMeta) : List UserVisibilityEntry :=
  (List.range scen.users.length).map
    (fun u => ⟨u, vis_filter scen (scen.users.getD u ORIGIN) (every4 sbl)⟩)

/-- Comparator `sortUsersByPotentialCoverage` (ascending number of visible
satellites).  The source passes the strict `<` to `std::sort`; the sort
model below uses the induced non-strict comparison, see the header note. -/
def sortUsersByPotentialCoverage (u1 u2 : UserVisibilityEntry) : Prop :=
  u1.visible_sats.length < u2.visible_sats.length

/-- Model of the `sort(user_vis_list.begin(), ..., sortUsersByPotentialCoverage)`
call in `solve`: some permutation pairwise non-decreasing in visible-list
length (std::sort leaves the tie order unspecified; `mergeSort` realises one
of the permitted outcomes). -/
def sort_user_vis (l : List UserVisibilityEntry) : List UserVisibilityEntry :=
  l.mergeSort
    (fun u1 u2 => decide (u1.visible_sats.length ≤ u2.visible_sats.length))

/-- Recursive transcription of the inner self-interference loop of
`assign_beams_and_print`: true iff some already-assigned target of the slot
forms an angle below `SELF_INTERFERENCE_MAX` at the satellite with the
candidate user. -/
def self_interference (sat_pos user_pos : Vec3) : List Vec3 → Prop
  | [] => False
  | t :: rest =>
    calc_angle sat_pos user_pos t < SELF_INTERFERENCE_MAX ∨
      self_interference sat_pos user_pos rest

/-- Commit of one beam, transcribing the success branch of the color loop:
append `user_pos` to the slot `sat_i*4 + c`, increment the counter shared by
satellite block `sat_i`, and emit the printed event (ids printed 1-based,
the beam number is the counter value after the increment, the satellite id
and color are read back from the `sat_beam_list` entry). -/
noncomputable def commit_beam (sbl : List SatBeamMeta) (st : BeamState)
    (user_pos : Vec3) (user_i : ℕ) (sat_i : ℤ) (c : ℕ) :
    BeamState × AssignmentEvent :=
  let idx : ℤ := sat_i * 4 + (c : ℤ)
  let beams := getI st.beam_lists idx []
  let st2 : BeamState :=
    ⟨setI st.beam_lists idx (beams ++ [user_pos]),
     setI st.counters sat_i (getI st.counters sat_i 0 + 1)⟩
  let meta := getI sbl idx default
  (st2, ⟨meta.sat_id + 1, getI st2.counters sat_i 0, user_i + 1, meta.color⟩)

open Classical in
/-- Color loop of `assign_beams_and_print` for one candidate satellite:
walk the color indices in order and commit at the first color whose slot has
no self-interference conflict with the candidate user.  This variant erases
the loop's `assert(next_beam_entry.sat_id == sat_i)`: it continues where the
program would abort, so it describes a superset of the program's states (the
invariant claims C4/C5 are proved over this superset, which only makes them
stronger).  The abort-faithful variant is `try_colors_asserting` below; the
two coincide whenever the assert passes. -/
noncomputable def try_colors (sbl : List SatBeamMeta) (st : BeamState)
    (sat_pos user_pos : Vec3) (sat_i : ℤ) (user_i : ℕ) :
    List ℕ → Option (BeamState × AssignmentEvent)
  | [] => none
  | c :: cs =>
    if self_interference sat_pos user_pos
        (getI st.beam_lists (sat_i * 4 + (c : ℤ)) []) then
      try_colors sbl st sat_pos user_pos sat_i user_i cs
    else
      some (commit_beam sbl st user_pos user_i sat_i c)

open Classical in
/-- Satellite loop (`while (sat_list_i < num_visible_sats && !assigned_beam)`)
of `assign_beams_and_print` for one user: skip a satellite whose shared
counter has reached `BEAMS_PER_SATELLITE`, otherwise run the color loop;
stop at the first commit. -/
noncomputable def sat_loop (scen : Scenario) (sbl : List SatBeamMeta)
    (user_i : ℕ) (st : BeamState) :
    List ℤ → BeamState × Option AssignmentEvent
  | [] => (st, none)
  | sat_i :: rest =>
    if BEAMS_PER_SATELLITE ≤ getI st.counters sat_i 0 then
      sat_loop scen sbl user_i st rest
    else
      let sat_pos := getI scen.sats sat_i ORIGIN
      let user_pos := scen.users.getD user_i ORIGIN
      match try_colors sbl st sat_pos user_pos sat_i user_i
          (List.range COLOR_IDS.length) with
      | some (st2, ev) => (st2, some ev)
      | none => sat_loop scen sbl user_i st rest

/-- One iteration of the outer user loop of `assign_beams_and_print`. -/
noncomputable def assign_step (scen : Scenario) (sbl : List SatBeamMeta)
    (st : BeamState) (e : UserVisibilityEntry) :
    BeamState × Option AssignmentEvent :=
  sat_loop scen sbl e.user_id st e.visible_sats

/-- Function `assign_beams_and_print`: fold the per-user step over the
(sorted) visibility entries, collecting the printed events in order. -/
noncomputable def assign_run (scen : Scenario) (sbl : List SatBeamMeta) :
    List UserVisibilityEntry → BeamState → BeamState × List AssignmentEvent
  | [], st => (st, [])
  | e :: rest, st =>
    let p := assign_step scen sbl st e
    let q := assign_run scen sbl rest p.1
    (q.1, p.2.toList ++ q.2)

/-- All heap states reached by `assign_beams_and_print`: the state before
any user and the state after each user iteration (each iteration performs at
most one commit, which the source specification treats as atomic). -/
noncomputable def assign_trace (scen : Scenario) (sbl : List SatBeamMeta) :
    List UserVisibilityEntry → BeamState → List BeamState
  | [], st => [st]
  | e :: rest, st => st :: assign_trace scen sbl rest (assign_step scen sbl st e).1

/-- Function `solve(filename)`: the whole pipeline.  The argument is `none`
when the file cannot be opened and `some lines` otherwise; the result
distinguishes the reported terminations, the aborts, and the list of emitted
assignment events on success. -/
noncomputable def solve (input : Option (List String)) : SolveOutcome :=
  match input with
  | none => .fileNotFound
  | some lines =>
    match parse_lines initAcc lines with
    | .error (.malformed l) => .malformedLine l
    | .error (.numberError t) => .exceptionAbort t
    | .error (.badRole r) => .assertAbort r
    | .ok acc =>
      let uvl := generate_user_vis_list acc.scenario acc.sbl
      .ok (assign_run acc.scenario acc.sbl (sort_user_vis uvl) acc.st).2

open Classical in
/-- First element of a list satisfying a predicate (spec wording: walk the
candidates in order and take the first admissible one). -/
noncomputable def find_first {α : Type} (P : α → Prop) : List α → Option α
  | [] => none
  | a :: rest => if P a then some a else find_first P rest

/-- Modelled from the spec wording of §4.4: the (satellite, color) candidate
pairs for one user, satellites in stored order (outer), the four colors in
declared order (inner). -/
def user_pairs : List ℤ → List (ℤ × ℕ)
  | [] => []
  | s :: rest =>
    (List.range COLOR_IDS.length).map (fun c => (s, c)) ++ user_pairs rest

/-- Modelled from the spec wording of §4.3/§4.4: a (satellite, color) pair is
admissible for a user when the satellite's shared counter has remaining
capacity and the slot has no self-interference conflict with the user. -/
def spec_admissible (scen : Scenario) (st : BeamState) (user_pos : Vec3)
    (p : ℤ × ℕ) : Prop :=
  getI st.counters p.1 0 < BEAMS_PER_SATELLITE ∧
    ¬ self_interference (getI scen.sats p.1 ORIGIN) user_pos
        (getI st.beam_lists (p.1 * 4 + (p.2 : ℤ)) [])

/-- Modelled from the spec wording of §4.4 (the refinement target for the
engine): commit at the first admissible (satellite, color) pair and emit one
event; emit nothing when no pair is admissible. -/
noncomputable def spec_step (scen : Scenario) (sbl : List SatBeamMeta)
    (st : BeamState) (e : UserVisibilityEntry) :
    BeamState × Option AssignmentEvent :=
  let user_pos := scen.users.getD e.user_id ORIGIN
  match find_first (spec_admissible scen st user_pos)
      (user_pairs e.visible_sats) with
  | none => (st, none)
  | some p =>
    let q := commit_beam sbl st user_pos e.user_id p.1 p.2
    (q.1, some q.2)

/-- Fold of `spec_step` over the users, mirroring `assign_run`. -/
noncomputable def spec_run (scen : Scenario) (sbl : List SatBeamMeta) :
    List UserVisibilityEntry → BeamState → BeamState × List AssignmentEvent
  | [], st => (st, [])
  | e :: rest, st =>
    let p := spec_step scen sbl st e
    let q := spec_run scen sbl rest p.1
    (q.1, p.2.toList ++ q.2)

/-- The elevation and interferer tests of the Visibility Builder for a user
position and a satellite id, exactly as `generate_user_vis_list` checks them. -/
def passes (scen : Scenario) (user_pos : Vec3) (s : ℤ) : Prop :=
  ¬ (calc_angle user_pos ORIGIN (getI scen.sats s ORIGIN) ≤
      180 - MAX_USER_VISIBLE_ANGLE) ∧
    ¬ interferer_violation user_pos (getI scen.sats s ORIGIN) scen.interferers

/-- A line the parser skips: first character `#` (comment) or empty. -/
def line_skipped (l : String) : Prop :=
  l.toList.headD '\x00' = '#' ∨ l = ""

instance decLineSkipped (l : String) : Decidable (line_skipped l) :=
  inferInstanceAs (Decidable (_ ∨ _))

/-- A line the parser consumes without failing: skipped, or 5 tokens whose
coordinates convert, whose role passes the `assert`, and (for a `sat` line)
whose id token converts. -/
def line_wellformed (l : String) : Prop :=
  line_skipped l ∨
    ((split l ' ').length = 5 ∧
     ((stofQ ((split l ' ').getD 2 "")).isSome = true) ∧
     ((stofQ ((split l ' ').getD 3 "")).isSome = true) ∧
     ((stofQ ((split l ' ').getD 4 "")).isSome = true) ∧
     ((split l ' ').getD 0 "" = USER_KEY ∨ (split l ' ').getD 0 "" = SATS_KEY ∨
       (split l ' ').getD 0 "" = INTERFERER_KEY) ∧
     ((split l ' ').getD 0 "" = SATS_KEY →
       (stoiZ ((split l ' ').getD 1 "")).isSome = true))

/-- The 1-based satellite id token of a non-skipped, 5-token `sat` line, when
it converts; `none` for every other line. -/
def line_sat_token (l : String) : Option ℤ :=
  if line_skipped l then none
  else
    let parts := split l ' '
    if parts.length ≠ 5 then none
    else if parts.getD 0 "" = SATS_KEY then stoiZ (parts.getD 1 "") else none

/-- The sequence of 1-based satellite id tokens of a scenario file, in line
order. -/
def sat_token_ids (lines : List String) : List ℤ :=
  lines.filterMap line_sat_token

/-- Sum of the sizes of the four per-color beam slots of satellite block `i`. -/
def slot_sum (st : BeamState) (i : ℕ) : ℕ :=
  (st.beam_lists.getD (4 * i) []).length +
    (st.beam_lists.getD (4 * i + 1) []).length +
    (st.beam_lists.getD (4 * i + 2) []).length +
    (st.beam_lists.getD (4 * i + 3) []).length

/-- Claim C4's invariant: every shared counter equals the sum of the sizes of
its satellite's four beam slots, and never exceeds `BEAMS_PER_SATELLITE`. -/
def counters_consistent (st : BeamState) : Prop :=
  (∀ i : ℕ, st.counters.getD i 0 = slot_sum st i) ∧
    ∀ c ∈ st.counters, c ≤ BEAMS_PER_SATELLITE

/-- Structural well-formedness of the heap: four beam slots per counter, as
allocated by the parser. -/
def state_len_ok (st : BeamState) : Prop :=
  st.beam_lists.length = 4 * st.counters.length

/-- Claim C5's invariant: within every beam slot, every pair of stored
positions subtends at least `SELF_INTERFERENCE_MAX` degrees at the position
of the slot's satellite (slot `j` belongs to satellite block `j / 4`). -/
def slots_separated (scen : Scenario) (st : BeamState) : Prop :=
  ∀ j : ℕ, (st.beam_lists.getD j []).Pairwise
    (fun a b =>
      SELF_INTERFERENCE_MAX ≤ calc_angle (scen.sats.getD (j / 4) ORIGIN) a b)

/-- Metadata consistency of `sat_beam_list` (what the engine's `assert`
checks, and what the parser produces for consecutively numbered satellite
lines): entry `k` carries satellite id `k / 4`. -/
def sbl_wellformed (sbl : List SatBeamMeta) : Prop :=
  ∀ k : ℕ, k < sbl.length → (sbl.getD k default).sat_id = (k : ℤ) / 4

/-- All satellite ids of a visibility entry index an existing counter. -/
def entry_ids_valid (st : BeamState) (e : UserVisibilityEntry) : Prop :=
  ∀ s ∈ e.visible_sats, 0 ≤ s ∧ s.toNat < st.counters.length

/-- The `sat_beam_list` metadata blocks produced by a sequence of 1-based
satellite id tokens: four entries per token, with stored id `token - 1`. -/
def blocksOf : List ℤ → List SatBeamMeta
  | [] => []
  | n :: rest => satBlock (n - 1) ++ blocksOf rest

/-- Result of the color loop of `assign_beams_and_print` in the
abort-faithful engine model: the loop's
`assert(next_beam_entry.sat_id == sat_i)` failed (the program aborts), or
every color had a conflict, or a beam was committed. -/
inductive ColorScanResult where
  | assertFailed : ColorScanResult
  | noColor : ColorScanResult
  | committed (st : BeamState) (ev : AssignmentEvent) : ColorScanResult
deriving DecidableEq

/-- Result of processing one user in the abort-faithful engine model: the
color-loop assert failed (the program aborts), or the user's walk finished
with the possibly-updated heap and at most one emitted event. -/
inductive UserStepResult where
  | assertFailed : UserStepResult
  | finished (st : BeamState) (ev : Option AssignmentEvent) : UserStepResult
deriving DecidableEq

open Classical in
/-- Abort-faithful transcription of the color loop of
`assign_beams_and_print`: each iteration first reads the
`sat_beam_list[sat_beam_i + color_i]` entry and checks the source's
`assert(next_beam_entry.sat_id == sat_i)` (a failure aborts the program,
before the conflict scan), then scans the slot for a self-interference
conflict and commits at the first conflict-free color. -/
noncomputable def try_colors_asserting (sbl : List SatBeamMeta)
    (st : BeamState) (sat_pos user_pos : Vec3) (sat_i : ℤ) (user_i : ℕ) :
    List ℕ → ColorScanResult
  | [] => .noColor
  | c :: cs =>
    if (getI sbl (sat_i * 4 + (c : ℤ)) default).sat_id ≠ sat_i then
      .assertFailed
    else if self_interference sat_pos user_pos
        (getI st.beam_lists (sat_i * 4 + (c : ℤ)) []) then
      try_colors_asserting sbl st sat_pos user_pos sat_i user_i cs
    else
      .committed (commit_beam sbl st user_pos user_i sat_i c).1
        (commit_beam sbl st user_pos user_i sat_i c).2

open Classical in
/-- Abort-faithful satellite loop of `assign_beams_and_print` for one user:
as `sat_loop`, but an assert failure inside the color loop aborts. -/
noncomputable def sat_loop_asserting (scen : Scenario)
    (sbl : List SatBeamMeta) (user_i : ℕ) (st : BeamState) :
    List ℤ → UserStepResult
  | [] => .finished st none
  | sat_i :: rest =>
    if BEAMS_PER_SATELLITE ≤ getI st.counters sat_i 0 then
      sat_loop_asserting scen sbl user_i st rest
    else
      match try_colors_asserting sbl st (getI scen.sats sat_i ORIGIN)
          (scen.users.getD user_i ORIGIN) sat_i user_i
          (List.range COLOR_IDS.length) with
      | .assertFailed => .assertFailed
      | .committed st2 ev => .finished st2 (some ev)
      | .noColor => sat_loop_asserting scen sbl user_i st rest

/-- Abort-faithful engine iteration for one user. -/
noncomputable def assign_step_asserting (scen : Scenario)
    (sbl : List SatBeamMeta) (st : BeamState) (e : UserVisibilityEntry) :
    UserStepResult :=
  sat_loop_asserting scen sbl e.user_id st e.visible_sats

/-- Abort-faithful engine run: fold the per-user step, stopping at an
assert abort.  The third component records whether the run aborted; the
events emitted before an abort were already printed by the program, so they
are kept. -/
noncomputable def assign_run_asserting (scen : Scenario)
    (sbl : List SatBeamMeta) :
    List UserVisibilityEntry → BeamState →
      BeamState × List AssignmentEvent × Bool
  | [], st => (st, [], false)
  | e :: rest, st =>
    match assign_step_asserting scen sbl st e with
    | .assertFailed => (st, [], true)
    | .finished st2 ev =>
      let q := assign_run_asserting scen sbl rest st2
      (q.1, ev.toList ++ q.2.1, q.2.2)

/-- Scenario parsed from the accepted file
`["sat 2 0 0 7000", "sat 1 0 0 7000", "user 1 0 0 6371"]`, whose satellite
id tokens are out of order: one user at (0,0,6371), the two satellite
positions in line order, no interferers. -/
def misnumbered_scenario : Scenario :=
  ⟨[⟨0, 0, 6371⟩], [⟨0, 0, 7000⟩, ⟨0, 0, 7000⟩], []⟩

/-- The `sat_beam_list` metadata the parser builds for that file: the first
line's block stores id `2 - 1 = 1`, the second line's block stores id
`1 - 1 = 0`. -/
def misnumbered_sbl : List SatBeamMeta := satBlock 1 ++ satBlock 0

/-- The beam heap the parser builds for that file: eight empty slots and
two zero counters. -/
def misnumbered_state : BeamState :=
  ⟨[[], [], [], [], [], [], [], []], [0, 0]⟩

lemma getI_coe {α : Type} (l : List α) (n : ℕ) (d : α) :
    getI l (n : ℤ) d = l.getD n d := by
  simp [getI]

lemma getI_neg {α : Type} (l : List α) (i : ℤ) (d : α) (h : i < 0) :
    getI l i d = d := by
  simp [getI, not_le.mpr h]

lemma setI_coe {α : Type} (l : List α) (n : ℕ) (a : α) :
    setI l (n : ℤ) a = l.set n a := by
  simp [setI]

lemma setI_neg {α : Type} (l : List α) (i : ℤ) (a : α) (h : i < 0) :
    setI l i a = l := by
  simp [setI, not_le.mpr h]

lemma length_setI {α : Type} (l : List α) (i : ℤ) (a : α) :
    (setI l i a).length = l.length := by
  unfold setI
  split <;> simp

lemma getD_set_self {α : Type} (l : List α) (n : ℕ) (a d : α)
    (h : n < l.length) : (l.set n a).getD n d = a := by
  simp [List.getD_eq_getElem?_getD, List.getElem?_set_self h]

lemma getD_set_ne {α : Type} (l : List α) (n m : ℕ) (a d : α) (h : n ≠ m) :
    (l.set n a).getD m d = l.getD m d := by
  simp [List.getD_eq_getElem?_getD, List.getElem?_set_ne h]

lemma getD_set_oob {α : Type} (l : List α) (n m : ℕ) (a d : α)
    (h : l.length ≤ n) : (l.set n a).getD m d = l.getD m d := by
  rw [List.set_eq_of_length_le h]

lemma self_interference_iff (sat_pos user_pos : Vec3) (l : List Vec3) :
    self_interference sat_pos user_pos l ↔
      ∃ t ∈ l, calc_angle sat_pos user_pos t < SELF_INTERFERENCE_MAX := by
  induction l with
  | nil => simp [self_interference]
  | cons t rest ih => simp [self_interference, ih]

lemma interferer_violation_iff (user_pos sat_pos : Vec3) (l : List Vec3) :
    interferer_violation user_pos sat_pos l ↔
      ∃ ip ∈ l, calc_angle user_pos ip sat_pos < NON_STARLINK_INTERFERENCE_MAX := by
  induction l with
  | nil => simp [interferer_violation]
  | cons ip rest ih => simp [interferer_violation, ih]

lemma norm_dot_comm (v a b : Vec3) : norm_dot v a b = norm_dot v b a := by
  unfold norm_dot
  ring

lemma calc_angle_comm (v a b : Vec3) : calc_angle v a b = calc_angle v b a := by
  unfold calc_angle
  rw [norm_dot_comm]

lemma sum_sq_eq_zero {x y z : ℝ} (h : x ^ 2 + y ^ 2 + z ^ 2 = 0) :
    x = 0 ∧ y = 0 ∧ z = 0 := by
  refine ⟨?_, ?_, ?_⟩ <;> nlinarith [sq_nonneg x, sq_nonneg y, sq_nonneg z]

lemma diff_mag_pos (v a : Vec3) (h : a ≠ v) : 0 < diff_mag v a := by
  unfold diff_mag
  have hnn : (0 : ℝ) ≤ ((a.x : ℝ) - v.x) ^ 2 + ((a.y : ℝ) - v.y) ^ 2 + ((a.z : ℝ) - v.z) ^ 2 := by positivity
  rcases lt_or_eq_of_le hnn with hlt | heq
  · exact Real.sqrt_pos.mpr hlt
  · exfalso
    obtain ⟨hx, hy, hz⟩ := sum_sq_eq_zero heq.symm
    apply h
    cases a
    cases v
    simp only [Vec3.mk.injEq]
    refine ⟨?_, ?_, ?_⟩ <;> [skip; skip; skip] <;>
      [exact_mod_cast sub_eq_zero.mp hx; exact_mod_cast sub_eq_zero.mp hy;
       exact_mod_cast sub_eq_zero.mp hz]

lemma norm_dot_self (v a : Vec3) (h : a ≠ v) : norm_dot v a a = 1 := by
  have hm := diff_mag_pos v a h
  have hm2 : diff_mag v a ^ 2 = ((a.x : ℝ) - v.x) ^ 2 + ((a.y : ℝ) - v.y) ^ 2 + ((a.z : ℝ) - v.z) ^ 2 := by
    unfold diff_mag
    rw [Real.sq_sqrt] ; positivity
  unfold norm_dot
  field_simp
  linarith [hm2]

lemma clamp_pm1_one : clamp_pm1 1 = 1 := by
  unfold clamp_pm1
  norm_num

lemma calc_angle_self (v a : Vec3) (h : a ≠ v) : calc_angle v a a = 0 := by
  unfold calc_angle
  rw [norm_dot_self v a h, clamp_pm1_one, Real.arccos_one]
  ring

lemma vis_filter_mem (scen : Scenario) (upos : Vec3) (metas : List SatBeamMeta)
    (s : ℤ) :
    s ∈ vis_filter scen upos metas ↔
      (∃ m ∈ metas, m.sat_id = s) ∧ passes scen upos s := by
  induction metas with
  | nil => simp [vis_filter]
  | cons m rest ih =>
    by_cases h1 : calc_angle upos ORIGIN (getI scen.sats m.sat_id ORIGIN) ≤
        180 - MAX_USER_VISIBLE_ANGLE
    · rw [vis_filter, if_pos h1, ih]
      constructor
      · rintro ⟨⟨m2, hm2, hid⟩, hp⟩
        exact ⟨⟨m2, List.mem_cons_of_mem m hm2, hid⟩, hp⟩
      · rintro ⟨⟨m2, hm2, hid⟩, hp⟩
        rcases List.mem_cons.mp hm2 with he | ht
        · exfalso
          apply hp.1
          rw [← hid, he]
          exact h1
        · exact ⟨⟨m2, ht, hid⟩, hp⟩
    · by_cases h2 : interferer_violation upos (getI scen.sats m.sat_id ORIGIN)
          scen.interferers
      · rw [vis_filter, if_neg h1, if_pos h2, ih]
        constructor
        · rintro ⟨⟨m2, hm2, hid⟩, hp⟩
          exact ⟨⟨m2, List.mem_cons_of_mem m hm2, hid⟩, hp⟩
        · rintro ⟨⟨m2, hm2, hid⟩, hp⟩
          rcases List.mem_cons.mp hm2 with he | ht
          · exfalso
            apply hp.2
            rw [← hid, he]
            exact h2
          · exact ⟨⟨m2, ht, hid⟩, hp⟩
      · rw [vis_filter, if_neg h1, if_neg h2]
        simp only [List.mem_cons]
        constructor
        · rintro (he | hmem)
          · subst he
            refine ⟨⟨m, Or.inl rfl, rfl⟩, ?_⟩
            exact ⟨h1, h2⟩
          · obtain ⟨⟨m2, hm2, hid⟩, hp⟩ := ih.mp hmem
            exact ⟨⟨m2, Or.inr hm2, hid⟩, hp⟩
        · rintro ⟨⟨m2, hm2, hid⟩, hp⟩
          rcases hm2 with he | ht
          · left
            rw [← hid, he]
          · right
            exact ih.mpr ⟨⟨m2, ht, hid⟩, hp⟩

lemma generate_user_vis_list_getD (scen : Scenario) (sbl : List SatBeamMeta)
    (u : ℕ) :
    (generate_user_vis_list scen sbl).getD u ⟨u, []⟩ =
      if u < scen.users.length then
        ⟨u, vis_filter scen (scen.users.getD u ORIGIN) (every4 sbl)⟩
      else ⟨u, []⟩ := by
  unfold generate_user_vis_list
  rw [List.getD_eq_getElem?_getD, List.getElem?_map]
  by_cases h : u < scen.users.length
  · rw [List.getElem?_range h, if_pos h]
    simp
  · rw [List.getElem?_eq_none (by simpa using not_lt.mp h), if_neg h]
    simp

/-- Claim C1: for every user, a satellite id appears in that user's
visibility list iff the angle computed at the user's position between the
ray toward the origin and the ray toward the satellite exceeds 135 degrees
(visibility fails when it is at most 135 degrees) and no interferer position
forms an angle smaller than 20 degrees at the user between the interferer
ray and the satellite ray.  (The satellite must of course be one of the
candidates walked by the builder, and the user index must be in range; both
appear as conjuncts on the right.) -/
theorem claim_C1_visibility_iff (scen : Scenario) (sbl : List SatBeamMeta)
    (u : ℕ) (s : ℤ) :
    s ∈ ((generate_user_vis_list scen sbl).getD u ⟨u, []⟩).visible_sats ↔
      (u < scen.users.length ∧
       s ∈ (every4 sbl).map SatBeamMeta.sat_id ∧
       135 < calc_angle (scen.users.getD u ORIGIN) ORIGIN
         (getI scen.sats s ORIGIN) ∧
       ∀ ip ∈ scen.interferers,
         ¬ (calc_angle (scen.users.getD u ORIGIN) ip
             (getI scen.sats s ORIGIN) < 20)) := by
  rw [generate_user_vis_list_getD]
  by_cases h : u < scen.users.length
  · rw [if_pos h]
    have hv : ((⟨u, vis_filter scen (scen.users.getD u ORIGIN) (every4 sbl)⟩ :
        UserVisibilityEntry)).visible_sats =
        vis_filter scen (scen.users.getD u ORIGIN) (every4 sbl) := rfl
    rw [hv, vis_filter_mem]
    unfold passes
    rw [interferer_violation_iff]
    constructor
    · rintro ⟨⟨m, hm, hid⟩, h1, h2⟩
      refine ⟨h, List.mem_map.mpr ⟨m, hm, hid⟩, ?_, ?_⟩
      · have h135 := not_le.mp h1
        simp only [MAX_USER_VISIBLE_ANGLE] at h135
        norm_num at h135
        simpa [List.getD_eq_getElem?_getD] using h135
      · intro ip hip hlt
        exact h2 ⟨ip, hip, by
          simp only [NON_STARLINK_INTERFERENCE_MAX]
          norm_num
          simpa [List.getD_eq_getElem?_getD] using hlt⟩
    · rintro ⟨-, hmem, h135, h20⟩
      obtain ⟨m, hm, hid⟩ := List.mem_map.mp hmem
      refine ⟨⟨m, hm, hid⟩, ?_, ?_⟩
      · rw [not_le]
        simp only [MAX_USER_VISIBLE_ANGLE]
        norm_num
        simpa [List.getD_eq_getElem?_getD] using h135
      · rintro ⟨ip, hip, hlt⟩
        refine h20 ip hip ?_
        simp only [NON_STARLINK_INTERFERENCE_MAX] at hlt
        norm_num at hlt
        simpa [List.getD_eq_getElem?_getD] using hlt
  · rw [if_neg h]
    simp [h]

/-- Claim C8: the angle function is symmetric in its two ray endpoints,
`calc_angle v a b = calc_angle v b a` for all inputs, and
`calc_angle v a a = 0` for every `a` distinct from the vertex `v`. -/
theorem claim_C8_angle_algebra :
    (∀ v a b : Vec3, calc_angle v a b = calc_angle v b a) ∧
      ∀ v a : Vec3, a ≠ v → calc_angle v a a = 0 :=
  ⟨calc_angle_comm, calc_angle_self⟩

/-- Witness for C8 at concrete points: the symmetry instance at vertex
`(0,0,0)` with `(1,0,0)` and `(0,1,0)`, and the zero-self-angle instance at
`(1,0,0)`, whose distinctness hypothesis is discharged by computation. -/
theorem claim_C8_angle_algebra_witness :
    calc_angle ⟨0, 0, 0⟩ ⟨1, 0, 0⟩ ⟨0, 1, 0⟩ =
        calc_angle ⟨0, 0, 0⟩ ⟨0, 1, 0⟩ ⟨1, 0, 0⟩ ∧
      calc_angle ⟨0, 0, 0⟩ ⟨1, 0, 0⟩ ⟨1, 0, 0⟩ = 0 :=
  ⟨claim_C8_angle_algebra.1 _ _ _,
   claim_C8_angle_algebra.2 _ _ (by decide)⟩

lemma parse_line_skip (acc : ParseAcc) (l : String) (hs : line_skipped l) :
    parse_line acc l = .ok acc := by
  unfold parse_line line_skipped at *
  rw [if_pos hs]

lemma parse_line_malformed (acc : ParseAcc) (l : String)
    (hns : ¬ line_skipped l) (h5 : (split l ' ').length ≠ 5) :
    parse_line acc l = .error (.malformed l) := by
  unfold parse_line line_skipped at *
  rw [if_neg hns, if_pos h5]

lemma parse_line_ok_of_wellformed (l : String) (h : line_wellformed l)
    (acc : ParseAcc) : ∃ acc2, parse_line acc l = .ok acc2 := by
  by_cases hs : line_skipped l
  · exact ⟨acc, parse_line_skip acc l hs⟩
  · rcases h with hsk | ⟨h5, h2, h3, h4, hrole, hsat⟩
    · exact absurd hsk hs
    · unfold parse_line
      unfold line_skipped at hs
      rw [if_neg hs, if_neg (by rw [h5]; omega : ¬ (split l ' ').length ≠ 5)]
      obtain ⟨x, hx⟩ := Option.isSome_iff_exists.mp h2
      obtain ⟨y, hy⟩ := Option.isSome_iff_exists.mp h3
      obtain ⟨z, hz⟩ := Option.isSome_iff_exists.mp h4
      rw [hx, hy, hz]
      dsimp only
      rw [if_neg (not_not_intro hrole)]
      by_cases hr : (split l ' ').getD 0 "" = SATS_KEY
      · obtain ⟨n, hn⟩ := Option.isSome_iff_exists.mp (hsat hr)
        rw [if_pos hr, hn]
        exact ⟨_, rfl⟩
      · rw [if_neg hr]
        exact ⟨_, rfl⟩

lemma parse_lines_malformed (l : String) (post : List String)
    (hns : ¬ line_skipped l) (h5 : (split l ' ').length ≠ 5) :
    ∀ pre : List String, (∀ p ∈ pre, line_wellformed p) → ∀ acc : ParseAcc,
      parse_lines acc (pre ++ l :: post) = .error (.malformed l) := by
  intro pre
  induction pre with
  | nil =>
    intro _ acc
    show parse_lines acc (l :: post) = _
    unfold parse_lines
    rw [parse_line_malformed acc l hns h5]
  | cons p pre ih =>
    intro hwf acc
    obtain ⟨acc2, hacc2⟩ :=
      parse_line_ok_of_wellformed p (hwf p (List.mem_cons_self p pre)) acc
    show parse_lines acc (p :: (pre ++ l :: post)) = _
    unfold parse_lines
    rw [hacc2]
    exact ih (fun q hq => hwf q (List.mem_cons_of_mem p hq)) acc2

/-- Claim C7 counterexample: in the two-line file
`["user 1 a 0 0", "x"]` the line `"x"` is a non-empty non-comment line that
does not split into 5 tokens, yet the run does not take the reported
malformed-line termination path: the earlier line's `stof("a")` throws
first, so the run aborts with an uncaught exception (still with no
assignment output, but unreported). -/
theorem claim_C7_counterexample :
    ¬ line_skipped "x" ∧ (split "x" ' ').length ≠ 5 ∧
      solve (some ["user 1 a 0 0", "x"]) = SolveOutcome.exceptionAbort "a" :=
  ⟨by decide, by decide, rfl⟩

/-- Claim C7 as amended: a missing file is reported and terminates with no
assignment output; a non-empty non-comment line with a token count other
than 5 is reported (`couldn't read line!`) and terminates the run with no
assignment output, provided every earlier line is well-formed (an earlier
number-conversion failure or role-assert failure aborts the run first). -/
theorem claim_C7_amended :
    solve none = SolveOutcome.fileNotFound ∧
      ∀ (pre : List String) (l : String) (post : List String),
        (∀ p ∈ pre, line_wellformed p) → ¬ line_skipped l →
        (split l ' ').length ≠ 5 →
        solve (some (pre ++ l :: post)) = SolveOutcome.malformedLine l := by
  refine ⟨rfl, ?_⟩
  intro pre l post hpre hns h5
  have hp := parse_lines_malformed l post hns h5 pre hpre initAcc
  unfold solve
  dsimp only
  rw [hp]

/-- Witness for the amended C7 at a concrete input: the empty file prefix and
the malformed line `"x"`. -/
theorem claim_C7_amended_witness :
    solve none = SolveOutcome.fileNotFound ∧
      solve (some ([] ++ "x" :: [])) = SolveOutcome.malformedLine "x" :=
  ⟨claim_C7_amended.1,
   claim_C7_amended.2 [] "x" [] (by simp) (by decide) (by decide)⟩

/-- Claim C9: a file whose lines all have exactly 5 tokens but whose role
token is none of `user`, `sat`, `interferer` makes the role `assert` fail,
so the run aborts rather than taking the reported-error termination path;
with a known role in place of `foo` the same line parses.  (`assertAbort`
and `malformedLine` are distinct outcomes by construction.) -/
theorem claim_C9_role_assert_abort :
    (split "foo 1 0 0 0" ' ').length = 5 ∧
      solve (some ["foo 1 0 0 0"]) = SolveOutcome.assertAbort "foo" ∧
      (∀ l : String,
        SolveOutcome.assertAbort "foo" ≠ SolveOutcome.malformedLine l) ∧
      (parse_lines initAcc ["user 1 0 0 0"]).isOk = true :=
  ⟨by decide, rfl, fun l => by simp, rfl⟩

/-- Claim C10: a line with exactly 5 tokens whose coordinate tokens are not
parseable as numbers makes the `stof` conversion throw, terminating the
program without emitting the malformed-line report; a correct token count
alone does not guarantee the reported-error path. -/
theorem claim_C10_stof_exception :
    (split "user 1 x y z" ' ').length = 5 ∧
      solve (some ["user 1 x y z"]) = SolveOutcome.exceptionAbort "x" ∧
      ∀ l : String,
        SolveOutcome.exceptionAbort "x" ≠ SolveOutcome.malformedLine l :=
  ⟨by decide, rfl, fun l => by simp⟩

lemma parse_line_effect (acc : ParseAcc) (l : String) (acc2 : ParseAcc)
    (h : parse_line acc l = .ok acc2) :
    (∃ n, line_sat_token l = some n ∧ acc2.sbl = acc.sbl ++ satBlock (n - 1) ∧
        acc2.scenario.sats.length = acc.scenario.sats.length + 1 ∧
        acc2.st.beam_lists = acc.st.beam_lists ++ [[], [], [], []] ∧
        acc2.st.counters = acc.st.counters ++ [0]) ∨
      (line_sat_token l = none ∧ acc2.sbl = acc.sbl ∧
        acc2.scenario.sats.length = acc.scenario.sats.length ∧
        acc2.st = acc.st) := by
  unfold parse_line at h
  split at h
  · rename_i hs
    injection h with h
    subst h
    right
    refine ⟨?_, rfl, rfl, rfl⟩
    unfold line_sat_token
    rw [if_pos (show line_skipped l from hs)]
  · rename_i hs
    dsimp only at h
    split at h
    · simp at h
    · rename_i h5
      split at h
      · simp at h
      · rename_i x hx
        split at h
        · simp at h
        · rename_i y hy
          split at h
          · simp at h
          · rename_i z hz
            split at h
            · simp at h
            · rename_i hr
              split at h
              · rename_i hsat
                split at h
                · simp at h
                · rename_i n hn
                  injection h with h
                  subst h
                  left
                  refine ⟨n, ?_, rfl, ?_, rfl, rfl⟩
                  · unfold line_sat_token
                    dsimp only
                    rw [if_neg (show ¬ line_skipped l from hs), if_neg h5,
                      if_pos hsat]
                    exact hn
                  · dsimp only
                    unfold scenarioPush
                    rw [hsat]
                    rw [if_neg (by decide : ¬ (SATS_KEY = USER_KEY)), if_pos rfl]
                    simp
              · rename_i hnsat
                injection h with h
                subst h
                right
                refine ⟨?_, rfl, ?_, rfl⟩
                · unfold line_sat_token
                  dsimp only
                  rw [if_neg (show ¬ line_skipped l from hs), if_neg h5,
                    if_neg hnsat]
                · dsimp only
                  unfold scenarioPush
                  split
                  · simp
                  · simp

lemma parse_lines_sat_structure :
    ∀ (lines : List String) (acc r : ParseAcc),
      parse_lines acc lines = .ok r →
      r.sbl = acc.sbl ++ blocksOf (sat_token_ids lines) ∧
        r.scenario.sats.length =
          acc.scenario.sats.length + (sat_token_ids lines).length := by
  intro lines
  induction lines with
  | nil =>
    intro acc r h
    injection h with h
    subst h
    simp [sat_token_ids, blocksOf]
  | cons l rest ih =>
    intro acc r h
    unfold parse_lines at h
    rcases hpl : parse_line acc l with e | acc2
    · rw [hpl] at h
      simp at h
    · rw [hpl] at h
      dsimp only at h
      obtain ⟨hsbl, hlen⟩ := ih acc2 r h
      rcases parse_line_effect acc l acc2 hpl with ⟨n, hn, hsb, hsc, hbl, hcnt⟩ |
        ⟨hn, hsb, hsc, hst⟩
      · unfold sat_token_ids
        rw [List.filterMap_cons, hn]
        constructor
        · rw [hsbl, hsb]
          show _ = acc.sbl ++ blocksOf (n :: List.filterMap line_sat_token rest)
          rw [blocksOf]
          rw [List.append_assoc]
          rfl
        · rw [hlen, hsc]
          simp [sat_token_ids]
          omega
      · unfold sat_token_ids
        rw [List.filterMap_cons, hn]
        constructor
        · rw [hsbl, hsb]
          rfl
        · rw [hlen, hsc]
          rfl

lemma blocksOf_length (ids : List ℤ) : (blocksOf ids).length = 4 * ids.length := by
  induction ids with
  | nil => simp [blocksOf]
  | cons n rest ih =>
    simp only [blocksOf, List.length_append, List.length_cons, ih]
    simp [satBlock, COLOR_IDS]
    ring

lemma satBlock_length (n : ℤ) : (satBlock n).length = 4 := by
  simp [satBlock, COLOR_IDS]

lemma blocksOf_getD (ids : List ℤ) (k : ℕ) (hk : k < 4 * ids.length) :
    ((blocksOf ids).getD k default).sat_id = ids.getD (k / 4) 0 - 1 := by
  induction ids generalizing k with
  | nil => simp at hk
  | cons n rest ih =>
    rw [blocksOf]
    by_cases h4 : k < 4
    · rw [List.getD_append _ _ _ _ (by rw [satBlock_length]; exact h4)]
      have hdiv : k / 4 = 0 := by omega
      rw [hdiv, List.getD_cons_zero]
      interval_cases k <;> simp [satBlock, COLOR_IDS]
    · have h4' : 4 ≤ k := not_lt.mp h4
      rw [List.getD_append_right _ _ _ _ (by rw [satBlock_length]; exact h4')]
      rw [satBlock_length]
      have hdiv : k / 4 = (k - 4) / 4 + 1 := by omega
      rw [hdiv, List.getD_cons_succ]
      exact ih (k - 4) (by simp at hk ⊢; omega)

/-- Claim C3 counterexample: the parser accepts the one-line file
`sat 2 0 0 0`; the single satellite position then sits at index 0 of the
satellite sequence, but its stored 0-based identifier is `2 - 1 = 1`, not
the index 0: the parser converts the 1-based token but never checks that
ids follow insertion order, so index and identifier disagree on this
accepted input. -/
theorem claim_C3_counterexample :
    (parse_lines initAcc ["sat 2 0 0 0"]).toOption.map
        (fun r => ((r.sbl.getD 0 default).sat_id, r.scenario.sats.length)) =
      some (1, 1) ∧ (1 : ℤ) ≠ 0 :=
  ⟨rfl, by decide⟩

/-- Claim C3 as amended: for every accepted input whose satellite id tokens
are exactly the consecutive 1-based sequence 1, 2, 3, ... in line order, the
index of each satellite position equals the stored 0-based identifier:
`sat_beam_list` entry `k` carries id `k / 4` (so block `k / 4` is the
satellite at position index `k / 4`), and there are four entries per parsed
satellite position.  The parser performs the 1-based to 0-based conversion
but never validates the tokens, hence the consecutiveness hypothesis. -/
theorem claim_C3_amended :
    ∀ (lines : List String) (r : ParseAcc),
      parse_lines initAcc lines = .ok r →
      sat_token_ids lines =
        (List.range (sat_token_ids lines).length).map (fun k : ℕ => (k : ℤ) + 1) →
      (∀ k : ℕ, k < r.sbl.length →
          (r.sbl.getD k default).sat_id = (k : ℤ) / 4) ∧
        r.sbl.length = 4 * r.scenario.sats.length := by
  intro lines r hp hc
  obtain ⟨hsbl, hlen⟩ := parse_lines_sat_structure lines initAcc r hp
  rw [show initAcc.sbl = [] from rfl, List.nil_append] at hsbl
  rw [show initAcc.scenario.sats.length = 0 from rfl, Nat.zero_add] at hlen
  constructor
  · intro k hk
    rw [hsbl] at hk ⊢
    rw [blocksOf_length] at hk
    rw [blocksOf_getD _ _ hk]
    have hq : k / 4 < (sat_token_ids lines).length := by omega
    rw [hc, List.getD_eq_getElem?_getD, List.getElem?_map,
      List.getElem?_range (by simpa using hq)]
    simp only [Option.map_some', Option.getD_some]
    omega
  · rw [hsbl, blocksOf_length, hlen]

/-- Witness for the amended C3 at the concrete accepted file
`["sat 1 0 0 0"]`, whose single satellite token 1 is the consecutive
sequence of length one. -/
theorem claim_C3_amended_witness :
    (∀ k : ℕ,
        k < ((parse_lines initAcc ["sat 1 0 0 0"]).toOption.getD
            initAcc).sbl.length →
        (((parse_lines initAcc ["sat 1 0 0 0"]).toOption.getD
              initAcc).sbl.getD k default).sat_id = (k : ℤ) / 4) ∧
      ((parse_lines initAcc ["sat 1 0 0 0"]).toOption.getD
          initAcc).sbl.length =
        4 * ((parse_lines initAcc ["sat 1 0 0 0"]).toOption.getD
            initAcc).scenario.sats.length :=
  claim_C3_amended ["sat 1 0 0 0"]
    ((parse_lines initAcc ["sat 1 0 0 0"]).toOption.getD initAcc)
    rfl rfl

lemma parse_lines_state :
    ∀ (lines : List String) (acc r : ParseAcc),
      parse_lines acc lines = .ok r →
      ((∀ x ∈ acc.st.counters, x = 0) → ∀ x ∈ r.st.counters, x = 0) ∧
        ((∀ sl ∈ acc.st.beam_lists, sl = []) →
          ∀ sl ∈ r.st.beam_lists, sl = []) ∧
        (acc.st.beam_lists.length = 4 * acc.st.counters.length →
          r.st.beam_lists.length = 4 * r.st.counters.length) := by
  intro lines
  induction lines with
  | nil =>
    intro acc r h
    injection h with h
    subst h
    exact ⟨id, id, id⟩
  | cons l rest ih =>
    intro acc r h
    unfold parse_lines at h
    rcases hpl : parse_line acc l with e | acc2
    · rw [hpl] at h
      simp at h
    · rw [hpl] at h
      dsimp only at h
      obtain ⟨ih1, ih2, ih3⟩ := ih acc2 r h
      rcases parse_line_effect acc l acc2 hpl with
        ⟨n, hn, hsb, hsc, hbl, hcnt⟩ | ⟨hn, hsb, hsc, hst⟩
      · refine ⟨?_, ?_, ?_⟩
        · intro hz
          apply ih1
          rw [hcnt]
          intro x hx
          rcases List.mem_append.mp hx with hx | hx
          · exact hz x hx
          · simpa using hx
        · intro hz
          apply ih2
          rw [hbl]
          intro sl hsl
          rcases List.mem_append.mp hsl with hsl | hsl
          · exact hz sl hsl
          · simp at hsl
            tauto
        · intro hl
          apply ih3
          rw [hbl, hcnt]
          simp only [List.length_append, List.length_cons, List.length_nil]
          omega
      · refine ⟨?_, ?_, ?_⟩
        · intro hz
          apply ih1
          rw [hst]
          exact hz
        · intro hz
          apply ih2
          rw [hst]
          exact hz
        · intro hl
          apply ih3
          rw [hst]
          exact hl

lemma initial_state_flat (lines : List String) (r : ParseAcc)
    (h : parse_lines initAcc lines = .ok r) :
    (∀ x ∈ r.st.counters, x = 0) ∧ (∀ sl ∈ r.st.beam_lists, sl = []) ∧
      state_len_ok r.st := by
  obtain ⟨h1, h2, h3⟩ := parse_lines_state lines initAcc r h
  exact ⟨h1 (by simp [initAcc]), h2 (by simp [initAcc]), h3 (by simp [initAcc])⟩

lemma initial_state_C4 (lines : List String) (r : ParseAcc)
    (h : parse_lines initAcc lines = .ok r) :
    state_len_ok r.st ∧ counters_consistent r.st := by
  obtain ⟨hz, he, hL⟩ := initial_state_flat lines r h
  have hterm : ∀ j : ℕ, (r.st.beam_lists.getD j []).length = 0 := by
    intro j
    rcases lt_or_ge j r.st.beam_lists.length with hj | hj
    · rw [List.getD_eq_getElem _ _ hj, he _ (List.getElem_mem hj)]
      rfl
    · rw [List.getD_eq_default _ _ hj]
      rfl
  refine ⟨hL, ?_, ?_⟩
  · intro i
    have hgd : r.st.counters.getD i 0 = 0 := by
      rcases lt_or_ge i r.st.counters.length with hi | hi
      · rw [List.getD_eq_getElem _ _ hi]
        exact hz _ (List.getElem_mem hi)
      · exact List.getD_eq_default _ _ hi
    rw [hgd]
    unfold slot_sum
    rw [hterm, hterm, hterm, hterm]
  · intro x hx
    rw [hz x hx]
    norm_num [BEAMS_PER_SATELLITE]

lemma commit_beam_fst (sbl : List SatBeamMeta) (st : BeamState) (up : Vec3)
    (u : ℕ) (s : ℤ) (c : ℕ) :
    (commit_beam sbl st up u s c).1 =
      ⟨setI st.beam_lists (s * 4 + (c : ℤ))
          (getI st.beam_lists (s * 4 + (c : ℤ)) [] ++ [up]),
        setI st.counters s (getI st.counters s 0 + 1)⟩ := rfl

lemma commit_beam_snd (sbl : List SatBeamMeta) (st : BeamState) (up : Vec3)
    (u : ℕ) (s : ℤ) (c : ℕ) :
    (commit_beam sbl st up u s c).2 =
      ⟨(getI sbl (s * 4 + (c : ℤ)) default).sat_id + 1,
        getI (setI st.counters s (getI st.counters s 0 + 1)) s 0,
        u + 1, (getI sbl (s * 4 + (c : ℤ)) default).color⟩ := rfl

lemma try_colors_cases (sbl : List SatBeamMeta) (st : BeamState)
    (sat_pos user_pos : Vec3) (sat_i : ℤ) (user_i : ℕ) :
    ∀ cs : List ℕ,
      try_colors sbl st sat_pos user_pos sat_i user_i cs = none ∨
        ∃ c ∈ cs,
          ¬ self_interference sat_pos user_pos
              (getI st.beam_lists (sat_i * 4 + (c : ℤ)) []) ∧
            try_colors sbl st sat_pos user_pos sat_i user_i cs =
              some (commit_beam sbl st user_pos user_i sat_i c) := by
  intro cs
  induction cs with
  | nil => left; rfl
  | cons c rest ih =>
    by_cases hi : self_interference sat_pos user_pos
        (getI st.beam_lists (sat_i * 4 + (c : ℤ)) [])
    · rcases ih with hnone | ⟨c2, hc2, hni, heq⟩
      · left
        rw [try_colors, if_pos hi]
        exact hnone
      · right
        refine ⟨c2, List.mem_cons_of_mem c hc2, hni, ?_⟩
        rw [try_colors, if_pos hi]
        exact heq
    · right
      refine ⟨c, List.mem_cons_self c rest, hi, ?_⟩
      rw [try_colors, if_neg hi]

lemma sat_loop_cases (scen : Scenario) (sbl : List SatBeamMeta) (user_i : ℕ)
    (st : BeamState) :
    ∀ sats : List ℤ,
      sat_loop scen sbl user_i st sats = (st, none) ∨
        ∃ s ∈ sats, ∃ c ∈ List.range COLOR_IDS.length,
          getI st.counters s 0 < BEAMS_PER_SATELLITE ∧
            ¬ self_interference (getI scen.sats s ORIGIN)
                (scen.users.getD user_i ORIGIN)
                (getI st.beam_lists (s * 4 + (c : ℤ)) []) ∧
            sat_loop scen sbl user_i st sats =
              ((commit_beam sbl st (scen.users.getD user_i ORIGIN) user_i
                  s c).1,
                some (commit_beam sbl st (scen.users.getD user_i ORIGIN)
                  user_i s c).2) := by
  intro sats
  induction sats with
  | nil => left; rfl
  | cons s rest ih =>
    by_cases hcap : BEAMS_PER_SATELLITE ≤ getI st.counters s 0
    · rcases ih with hnone | ⟨s2, hs2, c2, hc2, hcap2, hni2, heq⟩
      · left
        rw [sat_loop, if_pos hcap]
        exact hnone
      · right
        refine ⟨s2, List.mem_cons_of_mem s hs2, c2, hc2, hcap2, hni2, ?_⟩
        rw [sat_loop, if_pos hcap]
        exact heq
    · rcases try_colors_cases sbl st (getI scen.sats s ORIGIN)
          (scen.users.getD user_i ORIGIN) s user_i
          (List.range COLOR_IDS.length) with hnone | ⟨c, hc, hni, heq⟩
      · rcases ih with hnone2 | ⟨s2, hs2, c2, hc2, hcap2, hni2, heq2⟩
        · left
          rw [sat_loop, if_neg hcap]
          dsimp only
          rw [hnone]
          exact hnone2
        · right
          refine ⟨s2, List.mem_cons_of_mem s hs2, c2, hc2, hcap2, hni2, ?_⟩
          rw [sat_loop, if_neg hcap]
          dsimp only
          rw [hnone]
          exact heq2
      · right
        refine ⟨s, List.mem_cons_self s rest, c, hc, not_le.mp hcap, hni, ?_⟩
        rw [sat_loop, if_neg hcap]
        dsimp only
        rw [heq]

lemma slot_sum_fields (bl : List (List Vec3)) (cnt cnt2 : List ℕ) (i : ℕ) :
    slot_sum ⟨bl, cnt⟩ i = slot_sum ⟨bl, cnt2⟩ i := rfl

lemma slot_sum_set_self (st : BeamState) (cnt2 : List ℕ) (up : Vec3)
    (n c : ℕ) (hc : c < 4) (hidx : 4 * n + c < st.beam_lists.length) :
    slot_sum ⟨st.beam_lists.set (4 * n + c)
        (st.beam_lists.getD (4 * n + c) [] ++ [up]), cnt2⟩ n =
      slot_sum st n + 1 := by
  have hterm : ∀ k : ℕ, k < 4 →
      (st.beam_lists.set (4 * n + c)
          (st.beam_lists.getD (4 * n + c) [] ++ [up])).getD (4 * n + k) [] =
        if k = c then st.beam_lists.getD (4 * n + c) [] ++ [up]
        else st.beam_lists.getD (4 * n + k) [] := by
    intro k hk
    by_cases hkc : k = c
    · subst hkc
      rw [if_pos rfl, getD_set_self _ _ _ _ hidx]
    · rw [if_neg hkc, getD_set_ne _ _ _ _ _ (by omega)]
  have hterm0 :
      (st.beam_lists.set (4 * n + c)
          (st.beam_lists.getD (4 * n + c) [] ++ [up])).getD (4 * n) [] =
        if 0 = c then st.beam_lists.getD (4 * n + c) [] ++ [up]
        else st.beam_lists.getD (4 * n) [] := by
    by_cases hc0 : 0 = c
    · rw [if_pos hc0, ← hc0, Nat.add_zero]
      exact getD_set_self _ _ _ _ (by omega)
    · rw [if_neg hc0, getD_set_ne _ _ _ _ _ (by omega)]
  unfold slot_sum
  dsimp only
  rw [hterm0, hterm 1 (by omega), hterm 2 (by omega), hterm 3 (by omega)]
  interval_cases c <;> simp <;> omega

lemma slot_sum_set_ne (st : BeamState) (cnt2 : List ℕ) (v : List Vec3)
    (n c i : ℕ) (hc : c < 4) (hi : i ≠ n) :
    slot_sum ⟨st.beam_lists.set (4 * n + c) v, cnt2⟩ i = slot_sum st i := by
  unfold slot_sum
  dsimp only
  rw [getD_set_ne _ _ _ _ _ (by omega), getD_set_ne _ _ _ _ _ (by omega),
    getD_set_ne _ _ _ _ _ (by omega), getD_set_ne _ _ _ _ _ (by omega)]

lemma commit_C4 (sbl : List SatBeamMeta) (st : BeamState) (up : Vec3) (u : ℕ)
    (s : ℤ) (c : ℕ) (hc : c < 4)
    (hcap : getI st.counters s 0 < BEAMS_PER_SATELLITE)
    (hlen : state_len_ok st) (hinv : counters_consistent st) :
    state_len_ok (commit_beam sbl st up u s c).1 ∧
      counters_consistent (commit_beam sbl st up u s c).1 := by
  rw [commit_beam_fst]
  by_cases hs : 0 ≤ s
  · obtain ⟨n, rfl⟩ : ∃ n : ℕ, s = (n : ℤ) := ⟨s.toNat, by omega⟩
    have hidx : (n : ℤ) * 4 + (c : ℤ) = ((4 * n + c : ℕ) : ℤ) := by
      push_cast
      ring
    rw [hidx, setI_coe, setI_coe, getI_coe, getI_coe]
    rw [getI_coe] at hcap
    by_cases hnlt : n < st.counters.length
    · have hblidx : 4 * n + c < st.beam_lists.length := by
        unfold state_len_ok at hlen
        omega
      obtain ⟨hsum, hle⟩ := hinv
      refine ⟨?_, ?_, ?_⟩
      · unfold state_len_ok at hlen ⊢
        simpa using hlen
      · intro i
        show (st.counters.set n (st.counters.getD n 0 + 1)).getD i 0 = _
        by_cases hi : i = n
        · subst hi
          rw [getD_set_self _ _ _ _ hnlt,
            slot_sum_set_self st _ up i c hc hblidx, hsum i]
        · rw [getD_set_ne _ _ _ _ _ (fun he => hi he.symm),
            slot_sum_set_ne st _ _ n c i hc hi]
          exact hsum i
      · intro x hx
        rcases List.mem_or_eq_of_mem_set hx with hmem | heq
        · exact hle x hmem
        · subst heq
          unfold BEAMS_PER_SATELLITE at hcap ⊢
          omega
    · have hcnt : st.counters.set n (st.counters.getD n 0 + 1) =
          st.counters := List.set_eq_of_length_le (by omega)
      have hbl : st.beam_lists.set (4 * n + c)
          (st.beam_lists.getD (4 * n + c) [] ++ [up]) = st.beam_lists := by
        apply List.set_eq_of_length_le
        unfold state_len_ok at hlen
        omega
      rw [hcnt, hbl]
      exact ⟨hlen, hinv⟩
  · have hsneg : s < 0 := by omega
    have hczlt : (c : ℤ) < 4 := by exact_mod_cast hc
    rw [setI_neg _ _ _ (by omega), setI_neg _ _ _ hsneg]
    exact ⟨hlen, hinv⟩

lemma step_C4 (scen : Scenario) (sbl : List SatBeamMeta) (st : BeamState)
    (e : UserVisibilityEntry) (hlen : state_len_ok st)
    (hinv : counters_consistent st) :
    state_len_ok (assign_step scen sbl st e).1 ∧
      counters_consistent (assign_step scen sbl st e).1 := by
  unfold assign_step
  rcases sat_loop_cases scen sbl e.user_id st e.visible_sats with
    heq | ⟨s, hs, c, hc, hcap, hni, heq⟩
  · rw [heq]
    exact ⟨hlen, hinv⟩
  · rw [heq]
    exact commit_C4 sbl st (scen.users.getD e.user_id ORIGIN) e.user_id s c
      (by simpa [COLOR_IDS] using List.mem_range.mp hc) hcap hlen hinv

lemma trace_C4 (scen : Scenario) (sbl : List SatBeamMeta) :
    ∀ (entries : List UserVisibilityEntry) (st : BeamState),
      state_len_ok st → counters_consistent st →
      ∀ st2 ∈ assign_trace scen sbl entries st,
        state_len_ok st2 ∧ counters_consistent st2 := by
  intro entries
  induction entries with
  | nil =>
    intro st h1 h2 st2 hmem
    rw [assign_trace] at hmem
    simp at hmem
    subst hmem
    exact ⟨h1, h2⟩
  | cons e rest ih =>
    intro st h1 h2 st2 hmem
    rw [assign_trace] at hmem
    rcases List.mem_cons.mp hmem with he | ht
    · subst he
      exact ⟨h1, h2⟩
    · obtain ⟨h1s, h2s⟩ := step_C4 scen sbl st e h1 h2
      exact ih (assign_step scen sbl st e).1 h1s h2s st2 ht

/-- Claim C4: for every satellite, at every point during and after a run of
the assignment engine (the state before any user and after each user
iteration; a commit is the engine's one atomic mutation), the shared
capacity counter equals the sum of the sizes of its four per-color beam
slots and never exceeds 32 (`BEAMS_PER_SATELLITE`).  The first conjunct
shows the parser-built initial heap satisfies the invariant; the second is
its preservation along the whole engine trace. -/
theorem claim_C4_capacity_invariant :
    (∀ (lines : List String) (r : ParseAcc),
        parse_lines initAcc lines = .ok r →
        state_len_ok r.st ∧ counters_consistent r.st) ∧
      ∀ (scen : Scenario) (sbl : List SatBeamMeta)
        (entries : List UserVisibilityEntry) (st : BeamState),
        state_len_ok st → counters_consistent st →
        ∀ st2 ∈ assign_trace scen sbl entries st,
          state_len_ok st2 ∧ counters_consistent st2 :=
  ⟨initial_state_C4, trace_C4⟩

/-- Witness for C4: the parsed single-satellite file produces a heap
satisfying the invariant, and the empty engine run from the empty heap
keeps it. -/
theorem claim_C4_capacity_invariant_witness :
    (state_len_ok ((parse_lines initAcc ["sat 1 0 0 0"]).toOption.getD
          initAcc).st ∧
        counters_consistent ((parse_lines initAcc
          ["sat 1 0 0 0"]).toOption.getD initAcc).st) ∧
      state_len_ok (⟨[], []⟩ : BeamState) ∧
        counters_consistent (⟨[], []⟩ : BeamState) :=
  ⟨claim_C4_capacity_invariant.1 ["sat 1 0 0 0"] _ rfl,
   claim_C4_capacity_invariant.2 ⟨[], [], []⟩ [] [] ⟨[], []⟩ rfl
     ⟨fun i => by simp [slot_sum], by simp⟩ ⟨[], []⟩
     (by rw [assign_trace]; exact List.mem_singleton.mpr rfl)⟩

lemma commit_C5 (scen : Scenario) (sbl : List SatBeamMeta) (st : BeamState)
    (up : Vec3) (u : ℕ) (s : ℤ) (c : ℕ) (hc : c < 4)
    (hni : ¬ self_interference (getI scen.sats s ORIGIN) up
        (getI st.beam_lists (s * 4 + (c : ℤ)) []))
    (hsep : slots_separated scen st) :
    slots_separated scen (commit_beam sbl st up u s c).1 := by
  rw [commit_beam_fst]
  intro j
  by_cases hs : 0 ≤ s
  · obtain ⟨n, rfl⟩ : ∃ n : ℕ, s = (n : ℤ) := ⟨s.toNat, by omega⟩
    have hidx : (n : ℤ) * 4 + (c : ℤ) = ((4 * n + c : ℕ) : ℤ) := by
      push_cast
      ring
    rw [hidx, setI_coe, getI_coe]
    rw [hidx, getI_coe, getI_coe] at hni
    show ((st.beam_lists.set (4 * n + c)
        (st.beam_lists.getD (4 * n + c) [] ++ [up])).getD j []).Pairwise _
    by_cases hin : 4 * n + c < st.beam_lists.length
    · by_cases hj : j = 4 * n + c
      · subst hj
        rw [getD_set_self _ _ _ _ hin, List.pairwise_append]
        refine ⟨hsep (4 * n + c), List.pairwise_singleton _ _, ?_⟩
        intro a ha b hb
        simp only [List.mem_singleton] at hb
        subst hb
        have hdiv : (4 * n + c) / 4 = n := by omega
        rw [hdiv]
        rw [self_interference_iff] at hni
        push_neg at hni
        have hge := hni a ha
        rw [calc_angle_comm]
        exact hge
      · rw [getD_set_ne _ _ _ _ _ (fun he => hj he.symm)]
        exact hsep j
    · rw [List.set_eq_of_length_le (by omega)]
      exact hsep j
  · have hczlt : (c : ℤ) < 4 := by exact_mod_cast hc
    rw [setI_neg _ _ _ (by omega)]
    exact hsep j

lemma step_C5 (scen : Scenario) (sbl : List SatBeamMeta) (st : BeamState)
    (e : UserVisibilityEntry) (hsep : slots_separated scen st) :
    slots_separated scen (assign_step scen sbl st e).1 := by
  unfold assign_step
  rcases sat_loop_cases scen sbl e.user_id st e.visible_sats with
    heq | ⟨s, hs, c, hc, hcap, hni, heq⟩
  · rw [heq]
    exact hsep
  · rw [heq]
    exact commit_C5 scen sbl st (scen.users.getD e.user_id ORIGIN) e.user_id
      s c (by simpa [COLOR_IDS] using List.mem_range.mp hc) hni hsep

lemma trace_C5 (scen : Scenario) (sbl : List SatBeamMeta) :
    ∀ (entries : List UserVisibilityEntry) (st : BeamState),
      slots_separated scen st →
      ∀ st2 ∈ assign_trace scen sbl entries st, slots_separated scen st2 := by
  intro entries
  induction entries with
  | nil =>
    intro st h1 st2 hmem
    rw [assign_trace] at hmem
    simp at hmem
    subst hmem
    exact h1
  | cons e rest ih =>
    intro st h1 st2 hmem
    rw [assign_trace] at hmem
    rcases List.mem_cons.mp hmem with he | ht
    · subst he
      exact h1
    · exact ih (assign_step scen sbl st e).1 (step_C5 scen sbl st e h1) st2 ht

lemma initial_state_C5 (lines : List String) (r : ParseAcc) (scen : Scenario)
    (h : parse_lines initAcc lines = .ok r) : slots_separated scen r.st := by
  obtain ⟨-, he, -⟩ := initial_state_flat lines r h
  intro j
  have hj : r.st.beam_lists.getD j [] = [] := by
    rcases lt_or_ge j r.st.beam_lists.length with hj | hj
    · rw [List.getD_eq_getElem _ _ hj]
      exact he _ (List.getElem_mem hj)
    · exact List.getD_eq_default _ _ hj
  rw [hj]
  exact List.Pairwise.nil

/-- Claim C5: at every point during and after a run (the state before any
user and after each user iteration), for every (satellite, color) beam slot
and every pair of positions stored at distinct places in the slot, the
angle between them measured at the slot's satellite position as vertex is
at least `SELF_INTERFERENCE_MAX` (10 degrees); slot `j` belongs to
satellite block `j / 4`.  The first conjunct shows the parser-built heap
(all slots empty) satisfies the invariant; the second is its preservation
along the whole engine trace, for every scenario the engine may be run
against. -/
theorem claim_C5_separation_invariant :
    (∀ (lines : List String) (r : ParseAcc) (scen : Scenario),
        parse_lines initAcc lines = .ok r → slots_separated scen r.st) ∧
      ∀ (scen : Scenario) (sbl : List SatBeamMeta)
        (entries : List UserVisibilityEntry) (st : BeamState),
        slots_separated scen st →
        ∀ st2 ∈ assign_trace scen sbl entries st, slots_separated scen st2 :=
  ⟨initial_state_C5, trace_C5⟩

/-- Witness for C5: the parsed single-satellite file yields separated
(empty) slots, and the empty engine run from the empty heap keeps the
invariant. -/
theorem claim_C5_separation_invariant_witness :
    slots_separated ⟨[], [], []⟩ ((parse_lines initAcc
        ["sat 1 0 0 0"]).toOption.getD initAcc).st ∧
      slots_separated ⟨[], [], []⟩ (⟨[], []⟩ : BeamState) :=
  ⟨claim_C5_separation_invariant.1 ["sat 1 0 0 0"] _ ⟨[], [], []⟩ rfl,
   claim_C5_separation_invariant.2 ⟨[], [], []⟩ [] [] ⟨[], []⟩
     (fun j => by simp) ⟨[], []⟩
     (by rw [assign_trace]; exact List.mem_singleton.mpr rfl)⟩

lemma find_first_append {α : Type} (P : α → Prop) (l1 l2 : List α) :
    find_first P (l1 ++ l2) =
      match find_first P l1 with
      | some a => some a
      | none => find_first P l2 := by
  induction l1 with
  | nil => rfl
  | cons a rest ih =>
    by_cases hP : P a
    · have ha : find_first P (a :: rest) = some a := by
        rw [find_first, if_pos hP]
      rw [List.cons_append, find_first, if_pos hP, ha]
    · have ha : find_first P (a :: rest) = find_first P rest := by
        rw [find_first, if_neg hP]
      rw [List.cons_append, find_first, if_neg hP, ih, ha]

lemma find_first_none_of {α : Type} (P : α → Prop) (l : List α)
    (h : ∀ a ∈ l, ¬ P a) : find_first P l = none := by
  induction l with
  | nil => rfl
  | cons a rest ih =>
    rw [find_first, if_neg (h a (List.mem_cons_self a rest))]
    exact ih (fun b hb => h b (List.mem_cons_of_mem a hb))

lemma try_colors_eq_find (scen : Scenario) (sbl : List SatBeamMeta)
    (st : BeamState) (up : Vec3) (u : ℕ) (s : ℤ)
    (hcap : getI st.counters s 0 < BEAMS_PER_SATELLITE) :
    ∀ cs : List ℕ,
      try_colors sbl st (getI scen.sats s ORIGIN) up s u cs =
        (find_first (spec_admissible scen st up)
            (cs.map (fun c => (s, c)))).map
          (fun p => commit_beam sbl st up u p.1 p.2) := by
  intro cs
  induction cs with
  | nil => rfl
  | cons c rest ih =>
    rw [try_colors, List.map_cons, find_first]
    by_cases hi : self_interference (getI scen.sats s ORIGIN) up
        (getI st.beam_lists (s * 4 + (c : ℤ)) [])
    · rw [if_pos hi, if_neg (fun hP => hP.2 hi)]
      exact ih
    · rw [if_neg hi, if_pos ⟨hcap, hi⟩]
      rfl

lemma block_find_none (scen : Scenario) (st : BeamState) (up : Vec3) (s : ℤ)
    (hcap : ¬ getI st.counters s 0 < BEAMS_PER_SATELLITE) (cs : List ℕ) :
    find_first (spec_admissible scen st up) (cs.map (fun c => (s, c))) =
      none := by
  apply find_first_none_of
  intro p hp
  obtain ⟨c, -, hpc⟩ := List.mem_map.mp hp
  intro hP
  apply hcap
  rw [← hpc] at hP
  exact hP.1

lemma user_pairs_cons (s : ℤ) (sats : List ℤ) :
    user_pairs (s :: sats) =
      (List.range COLOR_IDS.length).map (fun c => (s, c)) ++ user_pairs sats :=
  rfl

lemma sat_loop_eq_spec (scen : Scenario) (sbl : List SatBeamMeta) (u : ℕ)
    (st : BeamState) :
    ∀ sats : List ℤ,
      sat_loop scen sbl u st sats =
        match find_first (spec_admissible scen st (scen.users.getD u ORIGIN))
            (user_pairs sats) with
        | none => (st, none)
        | some p =>
          ((commit_beam sbl st (scen.users.getD u ORIGIN) u p.1 p.2).1,
            some (commit_beam sbl st (scen.users.getD u ORIGIN) u p.1 p.2).2) := by
  intro sats
  induction sats with
  | nil => rfl
  | cons s rest ih =>
    rw [user_pairs_cons, find_first_append, sat_loop]
    by_cases hcap : BEAMS_PER_SATELLITE ≤ getI st.counters s 0
    · rw [if_pos hcap,
        block_find_none scen st (scen.users.getD u ORIGIN) s
          (not_lt.mpr hcap) (List.range COLOR_IDS.length)]
      exact ih
    · rw [if_neg hcap]
      dsimp only
      rw [try_colors_eq_find scen sbl st (scen.users.getD u ORIGIN) u s
        (not_le.mp hcap)]
      cases hf : find_first (spec_admissible scen st
          (scen.users.getD u ORIGIN))
          ((List.range COLOR_IDS.length).map (fun c => (s, c))) with
      | none =>
        rw [Option.map_none']
        exact ih
      | some p =>
        rw [Option.map_some']

lemma step_eq_spec (scen : Scenario) (sbl : List SatBeamMeta)
    (st : BeamState) (e : UserVisibilityEntry) :
    assign_step scen sbl st e = spec_step scen sbl st e := by
  unfold assign_step spec_step
  rw [sat_loop_eq_spec]

lemma run_eq_spec (scen : Scenario) (sbl : List SatBeamMeta) :
    ∀ (entries : List UserVisibilityEntry) (st : BeamState),
      assign_run scen sbl entries st = spec_run scen sbl entries st := by
  intro entries
  induction entries with
  | nil => intro st; rfl
  | cons e rest ih =>
    intro st
    rw [assign_run, spec_run, step_eq_spec, ih]

lemma sort_user_vis_sorted (l : List UserVisibilityEntry) :
    (sort_user_vis l).Pairwise
      (fun u1 u2 => u1.visible_sats.length ≤ u2.visible_sats.length) := by
  unfold sort_user_vis
  refine List.Pairwise.imp ?_ (List.sorted_mergeSort ?_ ?_ l)
  · exact fun hab => of_decide_eq_true hab
  · exact fun a b c hab hbc =>
      decide_eq_true
        (Nat.le_trans (of_decide_eq_true hab) (of_decide_eq_true hbc))
  · exact fun a b => by
      rcases Nat.le_total a.visible_sats.length b.visible_sats.length with
        h | h <;> simp [h]

lemma step_C6 (scen : Scenario) (sbl : List SatBeamMeta) (st : BeamState)
    (e : UserVisibilityEntry) (hWF : sbl_wellformed sbl)
    (hsl : sbl.length = st.beam_lists.length) (hlen : state_len_ok st)
    (hvalid : entry_ids_valid st e) :
    assign_step scen sbl st e = (st, none) ∨
      ∃ n : ℕ, n < st.counters.length ∧
        (assign_step scen sbl st e).1.counters =
          st.counters.set n (st.counters.getD n 0 + 1) ∧
        (assign_step scen sbl st e).1.beam_lists.length =
          st.beam_lists.length ∧
        ∃ ch, (assign_step scen sbl st e).2 =
          some ⟨(n : ℤ) + 1, st.counters.getD n 0 + 1, e.user_id + 1, ch⟩ := by
  unfold assign_step
  rcases sat_loop_cases scen sbl e.user_id st e.visible_sats with
    heq | ⟨s, hs, c, hcm, hcap, hni, heq⟩
  · left
    exact heq
  · right
    have hc4 : c < 4 := by simpa [COLOR_IDS] using List.mem_range.mp hcm
    obtain ⟨hs0, hslt⟩ := hvalid s hs
    obtain ⟨n, rfl⟩ : ∃ n : ℕ, s = (n : ℤ) := ⟨s.toNat, by omega⟩
    have hn : n < st.counters.length := by simpa using hslt
    have hidx : (n : ℤ) * 4 + (c : ℤ) = ((4 * n + c : ℕ) : ℤ) := by
      push_cast
      ring
    refine ⟨n, hn, ?_, ?_, ?_⟩
    · rw [heq, commit_beam_fst]
      exact setI_coe _ _ _
    · rw [heq, commit_beam_fst]
      dsimp only
      exact length_setI _ _ _
    · refine ⟨(getI sbl ((n : ℤ) * 4 + (c : ℤ)) default).color, ?_⟩
      rw [heq]
      show some (commit_beam sbl st (scen.users.getD e.user_id ORIGIN)
          e.user_id (n : ℤ) c).2 = _
      rw [commit_beam_snd]
      have hblidx : 4 * n + c < sbl.length := by
        unfold state_len_ok at hlen
        omega
      have hms := hWF (4 * n + c) hblidx
      have hsatid : (getI sbl ((n : ℤ) * 4 + (c : ℤ)) default).sat_id =
          (n : ℤ) := by
        rw [hidx, getI_coe, hms]
        push_cast
        omega
      have hbeam : getI (setI st.counters (n : ℤ)
          (getI st.counters (n : ℤ) 0 + 1)) (n : ℤ) 0 =
          st.counters.getD n 0 + 1 := by
        rw [setI_coe, getI_coe, getI_coe, getD_set_self _ _ _ _ hn]
      rw [hsatid, hbeam]

lemma run_C6 (scen : Scenario) (sbl : List SatBeamMeta)
    (hWF : sbl_wellformed sbl) :
    ∀ (entries : List UserVisibilityEntry) (st : BeamState),
      sbl.length = st.beam_lists.length → state_len_ok st →
      (∀ e ∈ entries, entry_ids_valid st e) →
      ∀ s : ℕ,
        ((assign_run scen sbl entries st).2.filter
            (fun ev => decide (ev.sat = (s : ℤ) + 1))).map
          (fun ev => ev.beam) =
          List.range' (st.counters.getD s 0 + 1)
            ((assign_run scen sbl entries st).2.filter
              (fun ev => decide (ev.sat = (s : ℤ) + 1))).length ∧
        (assign_run scen sbl entries st).1.counters.getD s 0 =
          st.counters.getD s 0 +
            ((assign_run scen sbl entries st).2.filter
              (fun ev => decide (ev.sat = (s : ℤ) + 1))).length := by
  intro entries
  induction entries with
  | nil =>
    intro st h1 h2 h3 s
    simp [assign_run]
  | cons e rest ih =>
    intro st hsl hlen hvalid s
    rcases step_C6 scen sbl st e hWF hsl hlen
        (hvalid e (List.mem_cons_self e rest)) with
      heq | ⟨n, hn, hcnt, hbl, ch, hev⟩
    · rw [assign_run]
      dsimp only
      rw [heq]
      dsimp only
      simp only [Option.toList_none, List.nil_append]
      exact ih st hsl hlen
        (fun e2 he2 => hvalid e2 (List.mem_cons_of_mem e he2)) s
    · have hsl1 : sbl.length = (assign_step scen sbl st e).1.beam_lists.length := by
        rw [hbl]
        exact hsl
      have hcl : (assign_step scen sbl st e).1.counters.length =
          st.counters.length := by
        rw [hcnt]
        exact List.length_set st.counters n _
      have hlen1 : state_len_ok (assign_step scen sbl st e).1 := by
        unfold state_len_ok at hlen ⊢
        rw [hbl, hcl]
        exact hlen
      have hvalid1 : ∀ e2 ∈ rest,
          entry_ids_valid (assign_step scen sbl st e).1 e2 := by
        intro e2 he2 s2 hs2
        obtain ⟨ha, hb⟩ := hvalid e2 (List.mem_cons_of_mem e he2) s2 hs2
        exact ⟨ha, by rw [hcl]; exact hb⟩
      obtain ⟨ihmap, ihcnt⟩ :=
        ih (assign_step scen sbl st e).1 hsl1 hlen1 hvalid1 s
      rw [assign_run]
      dsimp only
      rw [hev]
      simp only [Option.toList_some, List.singleton_append]
      by_cases hns : n = s
      · subst hns
        have hc1 : (assign_step scen sbl st e).1.counters.getD n 0 =
            st.counters.getD n 0 + 1 := by
          rw [hcnt]
          exact getD_set_self _ _ _ _ hn
        rw [hc1] at ihmap ihcnt
        rw [List.filter_cons_of_pos (by simp)]
        constructor
        · rw [List.map_cons, ihmap, List.length_cons, List.range'_succ]
        · rw [ihcnt, List.length_cons]
          omega
      · have hc2 : (assign_step scen sbl st e).1.counters.getD s 0 =
            st.counters.getD s 0 := by
          rw [hcnt]
          exact getD_set_ne _ _ _ _ _ hns
        rw [hc2] at ihmap ihcnt
        rw [List.filter_cons_of_neg (by simp; omega)]
        exact ⟨ihmap, ihcnt⟩

/-- Claim C6: for every satellite, the running beam counts reported in the
events emitted for that satellite within one run are the consecutive values
`counter+1, counter+2, ...` continuing from the satellite's counter at the
start of the run (so they are strictly increasing, and with the parser's
all-zero counters the first event reports 1), each count being the shared
counter value immediately after the increment of its commit; the final
counter equals the initial one plus the number of events for that
satellite.  Hypotheses: the `sat_beam_list` metadata is consistent (entry
`k` carries id `k/4`, which is what the engine's `assert` checks and what
the parser produces for consecutively numbered satellites), the heap has
four slots per counter, and every visible-satellite id indexes an existing
counter. -/
theorem claim_C6_monotone_beam_counts (scen : Scenario)
    (sbl : List SatBeamMeta) (entries : List UserVisibilityEntry)
    (st : BeamState) (s : ℕ) (hWF : sbl_wellformed sbl)
    (hsl : sbl.length = st.beam_lists.length) (hlen : state_len_ok st)
    (hvalid : ∀ e ∈ entries, entry_ids_valid st e) :
    ((assign_run scen sbl entries st).2.filter
        (fun ev => decide (ev.sat = (s : ℤ) + 1))).map
      (fun ev => ev.beam) =
      List.range' (st.counters.getD s 0 + 1)
        ((assign_run scen sbl entries st).2.filter
          (fun ev => decide (ev.sat = (s : ℤ) + 1))).length ∧
      (((assign_run scen sbl entries st).2.filter
          (fun ev => decide (ev.sat = (s : ℤ) + 1))).map
        (fun ev => ev.beam)).Pairwise (· < ·) ∧
      (assign_run scen sbl entries st).1.counters.getD s 0 =
        st.counters.getD s 0 +
          ((assign_run scen sbl entries st).2.filter
            (fun ev => decide (ev.sat = (s : ℤ) + 1))).length := by
  obtain ⟨hmap, hcnt⟩ := run_C6 scen sbl hWF entries st hsl hlen hvalid s
  refine ⟨hmap, ?_, hcnt⟩
  rw [hmap]
  exact List.pairwise_lt_range' _ _

/-- Witness for C6 on the empty scenario, empty `sat_beam_list`, empty user
list and empty heap: there are no events for satellite 0 and its counter
stays at its default 0. -/
theorem claim_C6_monotone_beam_counts_witness :
    ((assign_run ⟨[], [], []⟩ [] [] ⟨[], []⟩).2.filter
        (fun ev => decide (ev.sat = ((0 : ℕ) : ℤ) + 1))).map
      (fun ev => ev.beam) =
      List.range' ((⟨[], []⟩ : BeamState).counters.getD 0 0 + 1)
        ((assign_run ⟨[], [], []⟩ [] [] ⟨[], []⟩).2.filter
          (fun ev => decide (ev.sat = ((0 : ℕ) : ℤ) + 1))).length ∧
      (((assign_run ⟨[], [], []⟩ [] [] ⟨[], []⟩).2.filter
          (fun ev => decide (ev.sat = ((0 : ℕ) : ℤ) + 1))).map
        (fun ev => ev.beam)).Pairwise (· < ·) ∧
      (assign_run ⟨[], [], []⟩ [] [] ⟨[], []⟩).1.counters.getD 0 0 =
        (⟨[], []⟩ : BeamState).counters.getD 0 0 +
          ((assign_run ⟨[], [], []⟩ [] [] ⟨[], []⟩).2.filter
            (fun ev => decide (ev.sat = ((0 : ℕ) : ℤ) + 1))).length :=
  claim_C6_monotone_beam_counts ⟨[], [], []⟩ [] [] ⟨[], []⟩ 0
    (fun k hk => by simp at hk) rfl rfl (fun e he => by simp at he)

lemma try_colors_asserting_eq (sbl : List SatBeamMeta) (st : BeamState)
    (sat_pos up : Vec3) (s : ℤ) (u : ℕ) :
    ∀ cs : List ℕ,
      (∀ c ∈ cs, (getI sbl (s * 4 + (c : ℤ)) default).sat_id = s) →
      try_colors_asserting sbl st sat_pos up s u cs =
        match try_colors sbl st sat_pos up s u cs with
        | none => .noColor
        | some p => .committed p.1 p.2 := by
  intro cs
  induction cs with
  | nil => intro h; rfl
  | cons c cs ih =>
    intro h
    rw [try_colors_asserting, try_colors,
      if_neg (not_not_intro (h c (List.mem_cons_self c cs)))]
    by_cases hi : self_interference sat_pos up
        (getI st.beam_lists (s * 4 + (c : ℤ)) [])
    · rw [if_pos hi, if_pos hi]
      exact ih (fun c2 hc2 => h c2 (List.mem_cons_of_mem c hc2))
    · rw [if_neg hi, if_neg hi]

lemma sat_loop_asserting_eq (scen : Scenario) (sbl : List SatBeamMeta)
    (u : ℕ) :
    ∀ (sats : List ℤ) (st : BeamState),
      (∀ s ∈ sats, ∀ c ∈ List.range COLOR_IDS.length,
        (getI sbl (s * 4 + (c : ℤ)) default).sat_id = s) →
      sat_loop_asserting scen sbl u st sats =
        .finished (sat_loop scen sbl u st sats).1
          (sat_loop scen sbl u st sats).2 := by
  intro sats
  induction sats with
  | nil => intro st h; rfl
  | cons s rest ih =>
    intro st h
    rw [sat_loop_asserting, sat_loop]
    by_cases hcap : BEAMS_PER_SATELLITE ≤ getI st.counters s 0
    · rw [if_pos hcap, if_pos hcap]
      exact ih st (fun s2 hs2 => h s2 (List.mem_cons_of_mem s hs2))
    · rw [if_neg hcap, if_neg hcap]
      dsimp only
      rw [try_colors_asserting_eq sbl st _ _ s u _
        (fun c hc => h s (List.mem_cons_self s rest) c hc)]
      cases htc : try_colors sbl st (getI scen.sats s ORIGIN)
          (scen.users.getD u ORIGIN) s u (List.range COLOR_IDS.length) with
      | none => exact ih st (fun s2 hs2 => h s2 (List.mem_cons_of_mem s hs2))
      | some p =>
        cases p with
        | mk st2 ev => rfl

lemma assert_conditions (sbl : List SatBeamMeta) (st : BeamState)
    (e : UserVisibilityEntry) (hWF : sbl_wellformed sbl)
    (hsl : sbl.length = st.beam_lists.length) (hlen : state_len_ok st)
    (hvalid : entry_ids_valid st e) :
    ∀ s ∈ e.visible_sats, ∀ c ∈ List.range COLOR_IDS.length,
      (getI sbl (s * 4 + (c : ℤ)) default).sat_id = s := by
  intro s hs c hc
  have hc4 : c < 4 := by simpa [COLOR_IDS] using List.mem_range.mp hc
  obtain ⟨hs0, hslt⟩ := hvalid s hs
  obtain ⟨n, rfl⟩ : ∃ n : ℕ, s = (n : ℤ) := ⟨s.toNat, by omega⟩
  have hn : n < st.counters.length := by simpa using hslt
  have hidx : (n : ℤ) * 4 + (c : ℤ) = ((4 * n + c : ℕ) : ℤ) := by
    push_cast
    ring
  have hblidx : 4 * n + c < sbl.length := by
    unfold state_len_ok at hlen
    omega
  rw [hidx, getI_coe, hWF (4 * n + c) hblidx]
  push_cast
  omega

lemma step_lengths (scen : Scenario) (sbl : List SatBeamMeta)
    (st : BeamState) (e : UserVisibilityEntry) :
    (assign_step scen sbl st e).1.counters.length = st.counters.length ∧
      (assign_step scen sbl st e).1.beam_lists.length =
        st.beam_lists.length := by
  unfold assign_step
  rcases sat_loop_cases scen sbl e.user_id st e.visible_sats with
    heq | ⟨s, hs, c, hc, hcap, hni, heq⟩
  · rw [heq]
    exact ⟨rfl, rfl⟩
  · rw [heq, commit_beam_fst]
    exact ⟨length_setI _ _ _, length_setI _ _ _⟩

lemma step_asserting_eq_spec (scen : Scenario) (sbl : List SatBeamMeta)
    (st : BeamState) (e : UserVisibilityEntry) (hWF : sbl_wellformed sbl)
    (hsl : sbl.length = st.beam_lists.length) (hlen : state_len_ok st)
    (hvalid : entry_ids_valid st e) :
    assign_step_asserting scen sbl st e =
      .finished (spec_step scen sbl st e).1 (spec_step scen sbl st e).2 := by
  unfold assign_step_asserting
  rw [sat_loop_asserting_eq scen sbl e.user_id e.visible_sats st
    (assert_conditions sbl st e hWF hsl hlen hvalid)]
  have hse := step_eq_spec scen sbl st e
  unfold assign_step at hse
  rw [hse]

lemma run_asserting_eq_spec (scen : Scenario) (sbl : List SatBeamMeta)
    (hWF : sbl_wellformed sbl) :
    ∀ (entries : List UserVisibilityEntry) (st : BeamState),
      sbl.length = st.beam_lists.length → state_len_ok st →
      (∀ e ∈ entries, entry_ids_valid st e) →
      assign_run_asserting scen sbl entries st =
        ((spec_run scen sbl entries st).1,
          (spec_run scen sbl entries st).2, false) := by
  intro entries
  induction entries with
  | nil =>
    intro st _ _ _
    rfl
  | cons e rest ih =>
    intro st hsl hlen hvalid
    have hstep := step_asserting_eq_spec scen sbl st e hWF hsl hlen
      (hvalid e (List.mem_cons_self e rest))
    rw [assign_run_asserting, hstep]
    dsimp only
    have hsp1 : (spec_step scen sbl st e).1.counters.length =
        st.counters.length := by
      rw [← step_eq_spec]
      exact (step_lengths scen sbl st e).1
    have hsp2 : (spec_step scen sbl st e).1.beam_lists.length =
        st.beam_lists.length := by
      rw [← step_eq_spec]
      exact (step_lengths scen sbl st e).2
    have hsl1 : sbl.length = (spec_step scen sbl st e).1.beam_lists.length := by
      rw [hsp2]
      exact hsl
    have hlen1 : state_len_ok (spec_step scen sbl st e).1 := by
      unfold state_len_ok at hlen ⊢
      rw [hsp1, hsp2]
      exact hlen
    have hvalid1 : ∀ e2 ∈ rest, entry_ids_valid (spec_step scen sbl st e).1 e2 := by
      intro e2 he2 s2 hs2
      obtain ⟨ha, hb⟩ := hvalid e2 (List.mem_cons_of_mem e he2) s2 hs2
      exact ⟨ha, by rw [hsp1]; exact hb⟩
    rw [ih (spec_step scen sbl st e).1 hsl1 hlen1 hvalid1, spec_run]

lemma clamp_pm1_neg_one : clamp_pm1 (-1) = -1 := by
  unfold clamp_pm1
  norm_num

lemma diff_mag_user_origin : diff_mag ⟨0, 0, 6371⟩ ORIGIN = 6371 := by
  unfold diff_mag ORIGIN
  push_cast
  norm_num
  rw [show (40589641 : ℝ) = 6371 ^ 2 by norm_num]
  exact Real.sqrt_sq (by norm_num)

lemma diff_mag_user_sat : diff_mag ⟨0, 0, 6371⟩ ⟨0, 0, 7000⟩ = 629 := by
  unfold diff_mag
  push_cast
  norm_num
  rw [show (395641 : ℝ) = 629 ^ 2 by norm_num]
  exact Real.sqrt_sq (by norm_num)

lemma norm_dot_cex : norm_dot ⟨0, 0, 6371⟩ ORIGIN ⟨0, 0, 7000⟩ = -1 := by
  unfold norm_dot
  rw [diff_mag_user_origin, diff_mag_user_sat]
  unfold ORIGIN
  push_cast
  norm_num

lemma calc_angle_cex : calc_angle ⟨0, 0, 6371⟩ ORIGIN ⟨0, 0, 7000⟩ =
    Real.pi * 180 / PI_LITERAL := by
  unfold calc_angle
  rw [norm_dot_cex, clamp_pm1_neg_one, Real.arccos_neg_one]

lemma calc_angle_cex_gt :
    ¬ (calc_angle ⟨0, 0, 6371⟩ ORIGIN ⟨0, 0, 7000⟩ ≤
        180 - MAX_USER_VISIBLE_ANGLE) := by
  rw [calc_angle_cex, not_le]
  unfold MAX_USER_VISIBLE_ANGLE PI_LITERAL
  rw [lt_div_iff₀ (by norm_num)]
  nlinarith [Real.pi_gt_d6]

lemma every4_misnumbered : every4 misnumbered_sbl = [⟨1, 'A'⟩, ⟨0, 'A'⟩] := by
  simp [misnumbered_sbl, satBlock, COLOR_IDS, every4]

lemma vis_filter_misnumbered :
    vis_filter misnumbered_scenario ⟨0, 0, 6371⟩ [⟨1, 'A'⟩, ⟨0, 'A'⟩] =
      [1, 0] := by
  have hsat1 : getI misnumbered_scenario.sats
      ((⟨1, 'A'⟩ : SatBeamMeta)).sat_id ORIGIN = ⟨0, 0, 7000⟩ := rfl
  have hsat0 : getI misnumbered_scenario.sats
      ((⟨0, 'A'⟩ : SatBeamMeta)).sat_id ORIGIN = ⟨0, 0, 7000⟩ := rfl
  have hiv : ¬ interferer_violation ⟨0, 0, 6371⟩ ⟨0, 0, 7000⟩
      misnumbered_scenario.interferers := by
    rw [show misnumbered_scenario.interferers = [] from rfl]
    simp [interferer_violation]
  rw [vis_filter, hsat1, if_neg calc_angle_cex_gt, if_neg hiv,
    vis_filter, hsat0, if_neg calc_angle_cex_gt, if_neg hiv,
    vis_filter]

lemma guvl_misnumbered :
    generate_user_vis_list misnumbered_scenario misnumbered_sbl =
      [⟨0, [1, 0]⟩] := by
  have h : generate_user_vis_list misnumbered_scenario misnumbered_sbl =
      [⟨0, vis_filter misnumbered_scenario ⟨0, 0, 6371⟩
        (every4 misnumbered_sbl)⟩] := rfl
  rw [h, every4_misnumbered, vis_filter_misnumbered]

lemma sort_singleton_misnumbered :
    sort_user_vis [⟨0, [1, 0]⟩] = [⟨0, [1, 0]⟩] := by
  unfold sort_user_vis
  exact List.perm_singleton.mp (List.mergeSort_perm _ _)

/-- Claim C2 counterexample: on the accepted scenario file
`["sat 2 0 0 7000", "sat 1 0 0 7000", "user 1 0 0 6371"]` (whose parsed
metadata, heap, and entity counts are computed in the last conjunct, and
whose visibility list for the single user is `[1, 0]` by the third
conjunct), the abort-faithful engine hits the color loop's
`assert(next_beam_entry.sat_id == sat_i)` at the very first candidate
(`sat_beam_list[4]` stores id 0, not 1) and the program aborts with no
event — although a (satellite, color) pair with remaining capacity and no
conflict exists, at which the claimed first-fit behaviour (second conjunct)
would commit and emit one event.  The claim as stated is therefore false on
this input. -/
theorem claim_C2_counterexample :
    assign_step_asserting misnumbered_scenario misnumbered_sbl
        misnumbered_state ⟨0, [1, 0]⟩ = .assertFailed ∧
      spec_step misnumbered_scenario misnumbered_sbl misnumbered_state
          ⟨0, [1, 0]⟩ =
        (⟨[[], [], [], [], [⟨0, 0, 6371⟩], [], [], []], [0, 1]⟩,
          some ⟨1, 1, 1, 'A'⟩) ∧
      generate_user_vis_list misnumbered_scenario misnumbered_sbl =
        [⟨0, [1, 0]⟩] ∧
      sort_user_vis [⟨0, [1, 0]⟩] = [⟨0, [1, 0]⟩] ∧
      (parse_lines initAcc
          ["sat 2 0 0 7000", "sat 1 0 0 7000", "user 1 0 0 6371"]).toOption.map
        (fun r => (r.sbl, r.st, r.scenario.users.length,
          r.scenario.sats.length, r.scenario.interferers.length)) =
        some (misnumbered_sbl, misnumbered_state, 1, 2, 0) := by
  refine ⟨rfl, ?_, guvl_misnumbered, sort_singleton_misnumbered, rfl⟩
  have hP : spec_admissible misnumbered_scenario misnumbered_state
      (misnumbered_scenario.users.getD 0 ORIGIN) (1, 0) := by
    constructor
    · decide
    · show ¬ self_interference _ _
        (getI misnumbered_state.beam_lists (1 * 4 + ((0 : ℕ) : ℤ)) [])
      rw [show getI misnumbered_state.beam_lists
        (1 * 4 + ((0 : ℕ) : ℤ)) [] = [] from rfl]
      simp [self_interference]
  have hup : user_pairs [1, 0] = ((1 : ℤ), (0 : ℕ)) ::
      [(1, 1), (1, 2), (1, 3), (0, 0), (0, 1), (0, 2), (0, 3)] := rfl
  have hff : find_first (spec_admissible misnumbered_scenario
      misnumbered_state (misnumbered_scenario.users.getD 0 ORIGIN))
      (user_pairs [1, 0]) = some (1, 0) := by
    rw [hup, find_first, if_pos hP]
  unfold spec_step
  dsimp only
  rw [hff]
  rfl

/-- Claim C2 as amended: the engine processes users in ascending order of
visible-satellite-list length (the sorted list is a permutation of the
visibility entries, pairwise non-decreasing in length), and — provided the
`sat_beam_list` metadata is consistent (entry `k` carries id `k / 4`, which
is exactly what the color loop's `assert(next_beam_entry.sat_id == sat_i)`
checks, and what the parser produces for consecutively numbered satellite
lines) and every visible id addresses an in-range block — the
abort-faithful engine walks each user's visible satellites in stored order
and the four colors in declared order, committing and emitting exactly one
event at the first (satellite, color) pair with remaining capacity and no
conflict, then stops for that user; a user with no admissible pair produces
no event, and the run completes without aborting (equal to the first-fit
specification `spec_step`/`spec_run` built from the spec's wording).  On
inputs violating the metadata consistency the assert aborts the run
instead (see the counterexample). -/
theorem claim_C2_amended :
    (∀ l : List UserVisibilityEntry,
        (sort_user_vis l).Pairwise
          (fun u1 u2 => u1.visible_sats.length ≤ u2.visible_sats.length) ∧
          (sort_user_vis l).Perm l) ∧
      (∀ (scen : Scenario) (sbl : List SatBeamMeta) (st : BeamState)
          (e : UserVisibilityEntry),
        sbl_wellformed sbl → sbl.length = st.beam_lists.length →
        state_len_ok st → entry_ids_valid st e →
        assign_step_asserting scen sbl st e =
          .finished (spec_step scen sbl st e).1 (spec_step scen sbl st e).2) ∧
      ∀ (scen : Scenario) (sbl : List SatBeamMeta)
        (entries : List UserVisibilityEntry) (st : BeamState),
        sbl_wellformed sbl → sbl.length = st.beam_lists.length →
        state_len_ok st → (∀ e ∈ entries, entry_ids_valid st e) →
        assign_run_asserting scen sbl entries st =
          ((spec_run scen sbl entries st).1,
            (spec_run scen sbl entries st).2, false) :=
  ⟨fun l => ⟨sort_user_vis_sorted l, List.mergeSort_perm l _⟩,
   step_asserting_eq_spec,
   fun scen sbl entries st hWF hsl hlen hvalid =>
     run_asserting_eq_spec scen sbl hWF entries st hsl hlen hvalid⟩

/-- Witness for the amended C2 at concrete inputs: the empty metadata, heap
and user list satisfy all hypotheses, and both the per-user step and the
run agree with the first-fit specification there. -/
theorem claim_C2_amended_witness :
    assign_step_asserting ⟨[], [], []⟩ [] ⟨[], []⟩ ⟨0, []⟩ =
        .finished (spec_step ⟨[], [], []⟩ [] ⟨[], []⟩ ⟨0, []⟩).1
          (spec_step ⟨[], [], []⟩ [] ⟨[], []⟩ ⟨0, []⟩).2 ∧
      assign_run_asserting ⟨[], [], []⟩ [] [] ⟨[], []⟩ =
        ((spec_run ⟨[], [], []⟩ [] [] ⟨[], []⟩).1,
          (spec_run ⟨[], [], []⟩ [] [] ⟨[], []⟩).2, false) :=
  ⟨claim_C2_amended.2.1 ⟨[], [], []⟩ [] ⟨[], []⟩ ⟨0, []⟩
     (fun k hk => by simp at hk) rfl rfl (fun s hs => by simp at hs),
   claim_C2_amended.2.2 ⟨[], [], []⟩ [] [] ⟨[], []⟩
     (fun k hk => by simp at hk) rfl rfl (fun e he => by simp at he)⟩
